import Mathlib

/-!
Verification of the multi-tenant sandbox lifecycle manager
(`sandbox_manager.py`): a shallow embedding of the manager's pure control
flow.  Remote calls (sandbox create / connect / health probe / kill) and
Redis operations are modelled by an environment oracle that fixes the
outcome of each call; the embedding records every remote or cache call,
and every pool-lock acquire/release, in an event trace so that claims
about call counts and lock discipline can be stated.
-/

namespace SandboxManager

/-- A tenant key: `(user_id, project_id)`. -/
abbrev TKey := String × String

/-- The Redis store, as an association list from key string to sandbox id
(`redis.get` / `redis.setex` / `redis.delete`); TTLs are not modelled. -/
abbrev Store := List (String × String)

/-- Association-list lookup (Python `dict.__getitem__` / `in`). -/
def alLookup {K V : Type} [DecidableEq K] : List (K × V) → K → Option V
  | [], _ => none
  | (k, v) :: rest, key => if k = key then some v else alLookup rest key

/-- Association-list removal (Python `del d[key]` / `redis.delete`). -/
def alErase {K V : Type} [DecidableEq K] : List (K × V) → K → List (K × V)
  | [], _ => []
  | (k, v) :: rest, key =>
      if k = key then alErase rest key else (k, v) :: alErase rest key

/-- Association-list insert-or-replace (Python `d[key] = v` / `redis.setex`). -/
def alInsert {K V : Type} [DecidableEq K] (l : List (K × V)) (key : K) (v : V) :
    List (K × V) :=
  if (alLookup l key).isSome then
    l.map (fun kv => if kv.1 = key then (key, v) else kv)
  else l ++ [(key, v)]

/-- `SandboxConfig` from the source (API-key / internet / secure flags are
irrelevant to the modelled control flow and omitted). -/
structure SandboxConfig where
  template : Option String := some "next-fast-mongo-pre-v2"
  timeout : Nat := 500
  max_sandboxes_per_user : Nat := 2
  max_total_sandboxes : Nat := 100
  idle_timeout : Nat := 500
  max_sandbox_age : Nat := 900
  max_retries : Nat := 2
  retry_delay : ℚ := 1
  enable_redis : Bool := true
deriving Repr, DecidableEq

/-- `SandboxInfo` from the source.  The live `sandbox` handle is identified
with its `sandbox_id` (returning the handle is modelled as returning the id). -/
structure SandboxInfo where
  sandbox_id : String
  user_id : String
  project_id : String
  created_at : ℤ
  last_activity : ℤ
  request_count : Nat := 0
deriving Repr, DecidableEq

/-- `SandboxInfo.is_idle`: `(time.time() - self.last_activity) > timeout`. -/
def SandboxInfo.is_idle (info : SandboxInfo) (timeout : Nat) (now : ℤ) : Bool :=
  decide ((now - info.last_activity) > (timeout : ℤ))

/-- `SandboxInfo.is_expired`: `(time.time() - self.created_at) > max_age`. -/
def SandboxInfo.is_expired (info : SandboxInfo) (max_age : Nat) (now : ℤ) : Bool :=
  decide ((now - info.created_at) > (max_age : ℤ))

/-- `SandboxInfo.update_activity`: refresh `last_activity`, bump `request_count`. -/
def SandboxInfo.update_activity (info : SandboxInfo) (now : ℤ) : SandboxInfo :=
  { info with last_activity := now, request_count := info.request_count + 1 }

/-- The `_stats` dictionary of the manager. -/
structure Stats where
  total_sandboxes_created : Nat := 0
  total_requests : Nat := 0
  active_sandboxes : Nat := 0
  cleaned_up_sandboxes : Nat := 0
  rejected_requests : Nat := 0
  redis_cache_hits : Nat := 0
  redis_cache_misses : Nat := 0
deriving Repr, DecidableEq

/-- Which quota was exceeded in `_enforce_resource_limits`. -/
inductive LimitKind
  | globalLimit
  | perUserLimit
deriving Repr, DecidableEq

/-- The transient e2b exception classes retried by `_create_sandbox_for_user`:
`SandboxException`, `AuthenticationException`, `RateLimitException`,
`TimeoutException`. -/
inductive TransientErr
  | sandboxExc
  | authExc
  | rateLimitExc
  | timeoutExc
deriving Repr, DecidableEq

/-- Exception classes raised by remote health-check / reconnect calls:
`TimeoutError`, `ConnectionError`, `SandboxException`,
`AuthenticationException` (the latter covers e2b not-found errors as well),
or any other exception (`other`). -/
inductive RemoteErr
  | timeoutErr
  | connectionErr
  | sandboxExc
  | authExc
  | other
deriving Repr, DecidableEq

/-- Exceptions that `get_sandbox` / `close_sandbox` can raise to the caller.
`invalidTenant` is the `ValueError` from `_validate_userid_projectid`;
`resourceExhausted` is the `RuntimeError` from `_enforce_resource_limits`
(whose message identifies the limit that was hit, modelled by the
`LimitKind` tag); `createTransient e` is a transient e2b exception re-raised
at the final creation attempt; `createUnexpected` is a non-transient
creation exception re-raised immediately; `createExhausted` is the final
`RuntimeError("Failed to create sandbox after retries")`. -/
inductive Exc
  | notInitialized
  | invalidTenant (msg : String)
  | resourceExhausted (k : LimitKind)
  | createTransient (e : TransientErr)
  | createUnexpected
  | createExhausted
deriving Repr, DecidableEq

/-- Outcome of one attempt of a Redis operation: success, a connection-class
error (`ConnectionError` / `TimeoutError` / `OSError`), or any other error. -/
inductive CacheOp
  | ok
  | connErr
  | otherErr
deriving Repr, DecidableEq

/-- Outcome of one `AsyncSandbox.create` attempt. -/
inductive CreateResult
  | ok (sandbox_id : String)
  | transient (e : TransientErr)
  | fatal
deriving Repr, DecidableEq

/-- Events recorded by the embedding: pool-lock acquire/release, remote
sandbox calls (kill / health probe / connect / create), Redis calls, and
`asyncio.sleep` with its duration. -/
inductive Ev
  | acqPool
  | relPool
  | kill (ok : Bool)
  | health
  | connect (sandbox_id : String)
  | create
  | redisGet
  | redisSet
  | redisDel
  | sleepEv (d : ℚ)
deriving Repr, DecidableEq

/-- The manager's mutable state: configuration (`None` before
`initialize()`), whether a Redis client is present (`self._redis is not
None`), the in-process pool, and the statistics counters. -/
structure ManagerState where
  config : Option SandboxConfig
  redisPresent : Bool
  pool : List (TKey × SandboxInfo)
  stats : Stats
deriving Repr, DecidableEq

/-- The environment oracle for one manager operation: the current time,
the outcome of the Redis availability ping, the per-attempt outcomes of
each Redis operation kind, the outcomes of the remote health probe,
reconnect and creation calls, and the outcome of remote kill calls. -/
structure CallEnv where
  now : ℤ
  pingOk : Bool
  getOutcome : Nat → CacheOp
  setOutcome : Nat → CacheOp
  delOutcome : Nat → CacheOp
  healthOutcome : Option RemoteErr
  connectOutcome : Option RemoteErr
  reconnectHealthOk : Bool
  createOutcome : Nat → CreateResult
  killOk : TKey → Bool

/-- `_validate_userid_projectid`: both ids must be non-empty (the
`isinstance` checks are vacuous for string-typed arguments). -/
def validate_userid_projectid (user_id project_id : String) : Option Exc :=
  if user_id = "" then some (.invalidTenant "user_id must be a non-empty string")
  else if project_id = "" then
    some (.invalidTenant "project_id must be a non-empty string")
  else none

/-- `_get_redis_key`: `f"sandbox:{user_id}:{project_id}"`. -/
def getRedisKey (user_id project_id : String) : String :=
  "sandbox:" ++ user_id ++ ":" ++ project_id

/-- `_is_redis_available`: a client is present and its `ping()` succeeds. -/
def isRedisAvailable (st : ManagerState) (env : CallEnv) : Bool :=
  st.redisPresent && env.pingOk

/-- Result of `_get_cached_sandbox_id`. -/
structure CacheGetOut where
  result : Option String
  stats : Stats
  trace : List Ev
deriving Repr

/-- `_get_cached_sandbox_id`: if Redis is unavailable return `None`
immediately; otherwise up to two `redis.get` attempts, retrying once
on connection-class errors; a successful `get` increments the hit or miss
counter.  (The trace records one `redisGet` per attempt; the 0.1s pause
inside the cache adapter's retry is not recorded — `sleepEv` is reserved
for the creation loop's backoff sleeps.) -/
def getCachedSandboxId (avail : Bool) (outcome : Nat → CacheOp) (store : Store)
    (key : String) (stats : Stats) : CacheGetOut :=
  if !avail then ⟨none, stats, []⟩
  else
    match outcome 0 with
    | .ok =>
        match alLookup store key with
        | some sid =>
            ⟨some sid,
             { stats with redis_cache_hits := stats.redis_cache_hits + 1 },
             [.redisGet]⟩
        | none =>
            ⟨none,
             { stats with redis_cache_misses := stats.redis_cache_misses + 1 },
             [.redisGet]⟩
    | .otherErr => ⟨none, stats, [.redisGet]⟩
    | .connErr =>
        match outcome 1 with
        | .ok =>
            match alLookup store key with
            | some sid =>
                ⟨some sid,
                 { stats with redis_cache_hits := stats.redis_cache_hits + 1 },
                 [.redisGet, .redisGet]⟩
            | none =>
                ⟨none,
                 { stats with redis_cache_misses := stats.redis_cache_misses + 1 },
                 [.redisGet, .redisGet]⟩
        | _ => ⟨none, stats, [.redisGet, .redisGet]⟩

/-- Result of a Redis write/delete operation. -/
structure StoreOut where
  store : Store
  trace : List Ev
deriving Repr

/-- `_cache_sandbox_id`: `redis.setex` with one retry on connection-class
errors; errors are swallowed.  The TTL argument does not affect the
modelled store. -/
def cacheSandboxId (avail : Bool) (outcome : Nat → CacheOp) (store : Store)
    (key sid : String) (_ttl : Nat) : StoreOut :=
  if !avail then ⟨store, []⟩
  else
    match outcome 0 with
    | .ok => ⟨alInsert store key sid, [.redisSet]⟩
    | .otherErr => ⟨store, [.redisSet]⟩
    | .connErr =>
        match outcome 1 with
        | .ok => ⟨alInsert store key sid, [.redisSet, .redisSet]⟩
        | _ => ⟨store, [.redisSet, .redisSet]⟩

/-- `_remove_cached_sandbox_id`: `redis.delete` with one retry on
connection-class errors; errors are swallowed. -/
def removeCachedSandboxId (avail : Bool) (outcome : Nat → CacheOp)
    (store : Store) (key : String) : StoreOut :=
  if !avail then ⟨store, []⟩
  else
    match outcome 0 with
    | .ok => ⟨alErase store key, [.redisDel]⟩
    | .otherErr => ⟨store, [.redisDel]⟩
    | .connErr =>
        match outcome 1 with
        | .ok => ⟨alErase store key, [.redisDel, .redisDel]⟩
        | _ => ⟨store, [.redisDel, .redisDel]⟩

/-- Result of `_remove_sandbox` / `_cleanup_loop` cycle. -/
structure RemOut where
  state : ManagerState
  store : Store
  trace : List Ev
deriving Repr

/-- `_remove_sandbox`: while holding the pool-wide lock, best-effort remote
`kill()` (its failure is caught and only logged), delete the pool entry,
refresh `active_sandboxes` and bump `cleaned_up_sandboxes`; then, after
releasing the lock, evict the tenant's Redis record. -/
def removeSandbox (env : CallEnv) (st : ManagerState) (store : Store)
    (key : TKey) : RemOut :=
  let inner : ManagerState × List Ev :=
    match alLookup st.pool key with
    | some _ =>
        let pool2 := alErase st.pool key
        ({ st with
            pool := pool2,
            stats := { st.stats with
              active_sandboxes := pool2.length,
              cleaned_up_sandboxes := st.stats.cleaned_up_sandboxes + 1 } },
         [Ev.acqPool, Ev.kill (env.killOk key), Ev.relPool])
    | none => (st, [Ev.acqPool, Ev.relPool])
  let d := removeCachedSandboxId (isRedisAvailable inner.1 env) env.delOutcome
      store (getRedisKey key.1 key.2)
  ⟨inner.1, d.store, inner.2 ++ d.trace⟩

/-- Result of `get_sandbox` / a creation step. -/
structure GSOut where
  result : Except Exc String
  state : ManagerState
  store : Store
  trace : List Ev
deriving Repr

/-- `_enforce_resource_limits`: reject (bumping `rejected_requests`) when the
pool already holds `max_total_sandboxes` entries, else when the user already
holds `max_sandboxes_per_user` entries; the raised `RuntimeError`'s message
identifies the limit (modelled by the `LimitKind` tag). -/
def enforceResourceLimits (cfg : SandboxConfig) (user_id : String)
    (st : ManagerState) : Option Exc × ManagerState :=
  if st.pool.length ≥ cfg.max_total_sandboxes then
    (some (.resourceExhausted .globalLimit),
     { st with stats :=
        { st.stats with rejected_requests := st.stats.rejected_requests + 1 } })
  else
    let user_sandboxes := st.pool.filter (fun kv => kv.1.1 = user_id)
    if user_sandboxes.length ≥ cfg.max_sandboxes_per_user then
      (some (.resourceExhausted .perUserLimit),
       { st with stats :=
          { st.stats with rejected_requests := st.stats.rejected_requests + 1 } })
    else (none, st)

/-- The retry loop of `_create_sandbox_for_user`
(`for attempt in range(1, max_retries + 1)`), with `rem` the number of
remaining iterations.  A successful `AsyncSandbox.create` stores the entry
in the pool (under the pool lock), bumps `total_sandboxes_created`,
refreshes `active_sandboxes` and write-throughs to Redis with
`TTL = max(idle_timeout, max_sandbox_age)`.  A transient e2b exception
sleeps `retry_delay * 2^(attempt-1)` and retries while
`attempt < max_retries`, else re-raises; any other exception re-raises
immediately.  Falling off the loop raises
`RuntimeError("Failed to create sandbox after retries")`. -/
def createLoop (cfg : SandboxConfig) (env : CallEnv) (st : ManagerState)
    (store : Store) (user_id project_id : String) :
    Nat → Nat → GSOut
  | 0, _ => ⟨.error .createExhausted, st, store, []⟩
  | rem + 1, attempt =>
    match env.createOutcome attempt with
    | .ok sid =>
        let info : SandboxInfo :=
          { sandbox_id := sid, user_id := user_id, project_id := project_id,
            created_at := env.now, last_activity := env.now }
        let pool2 := alInsert st.pool (user_id, project_id) info
        let st2 := { st with
          pool := pool2,
          stats := { st.stats with
            total_sandboxes_created := st.stats.total_sandboxes_created + 1,
            active_sandboxes := pool2.length } }
        let ttl := max cfg.idle_timeout cfg.max_sandbox_age
        let w := cacheSandboxId (isRedisAvailable st2 env) env.setOutcome store
            (getRedisKey user_id project_id) sid ttl
        ⟨.ok sid, st2, w.store, [Ev.create, Ev.acqPool, Ev.relPool] ++ w.trace⟩
    | .transient e =>
        if attempt < cfg.max_retries then
          let d := cfg.retry_delay * 2 ^ (attempt - 1)
          let r := createLoop cfg env st store user_id project_id rem (attempt + 1)
          ⟨r.result, r.state, r.store, [Ev.create, Ev.sleepEv d] ++ r.trace⟩
        else ⟨.error (.createTransient e), st, store, [Ev.create]⟩
    | .fatal => ⟨.error .createUnexpected, st, store, [Ev.create]⟩

/-- `_create_sandbox_for_user`: the retry loop started at attempt 1 with
`max_retries` iterations. -/
def createSandboxForUser (cfg : SandboxConfig) (env : CallEnv)
    (st : ManagerState) (store : Store) (user_id project_id : String) : GSOut :=
  createLoop cfg env st store user_id project_id cfg.max_retries 1

/-- Step 3 of `get_sandbox`: `_enforce_resource_limits` then
`_create_sandbox_for_user`. -/
def stepCreate (cfg : SandboxConfig) (env : CallEnv) (st : ManagerState)
    (store : Store) (user_id project_id : String) : GSOut :=
  match enforceResourceLimits cfg user_id st with
  | (some e, st2) => ⟨.error e, st2, store, []⟩
  | (none, st2) => createSandboxForUser cfg env st2 store user_id project_id

/-- Steps 2-3 of `get_sandbox`: the Redis cache check, the reconnect attempt
on a hit (`AsyncSandbox.connect` with a secondary health probe, then pool
insertion under the pool lock), eviction of the stale cache record on
reconnect failure, and fall-through to the creation step. -/
def stepCacheAndCreate (cfg : SandboxConfig) (env : CallEnv) (st : ManagerState)
    (store : Store) (user_id project_id : String) : GSOut :=
  let key : TKey := (user_id, project_id)
  let rkey := getRedisKey user_id project_id
  let avail := isRedisAvailable st env
  let g := getCachedSandboxId avail env.getOutcome store rkey st.stats
  let st1 := { st with stats := g.stats }
  match g.result with
  | some sid =>
      match env.connectOutcome with
      | none =>
          if env.reconnectHealthOk then
            let info : SandboxInfo :=
              { sandbox_id := sid, user_id := user_id, project_id := project_id,
                created_at := env.now, last_activity := env.now }
            let pool2 := alInsert st1.pool key info
            let st2 := { st1 with
              pool := pool2,
              stats := { st1.stats with active_sandboxes := pool2.length } }
            ⟨.ok sid, st2, store,
             g.trace ++ [Ev.connect sid, Ev.health, Ev.acqPool, Ev.relPool]⟩
          else
            let d := removeCachedSandboxId avail env.delOutcome store rkey
            let c := stepCreate cfg env st1 d.store user_id project_id
            ⟨c.result, c.state, c.store,
             g.trace ++ [Ev.connect sid, Ev.health] ++ d.trace ++ c.trace⟩
      | some _ =>
          let d := removeCachedSandboxId avail env.delOutcome store rkey
          let c := stepCreate cfg env st1 d.store user_id project_id
          ⟨c.result, c.state, c.store,
           g.trace ++ [Ev.connect sid] ++ d.trace ++ c.trace⟩
  | none =>
      let c := stepCreate cfg env st1 store user_id project_id
      ⟨c.result, c.state, c.store, g.trace ++ c.trace⟩

/-- `get_sandbox(user_id, project_id)`: fail if not initialized; validate the
tenant ids; bump `total_requests`; then (under the tenant lock, which the
sequential model keeps implicit) check the in-process pool — a fresh entry
(idle < 30s) is returned with no remote call, an idle entry is health-probed
and on failure removed via `_remove_sandbox` — and fall through to the cache
check and creation steps. -/
def get_sandbox (env : CallEnv) (st : ManagerState) (store : Store)
    (user_id project_id : String) : GSOut :=
  match st.config with
  | none => ⟨.error .notInitialized, st, store, []⟩
  | some cfg =>
    match validate_userid_projectid user_id project_id with
    | some e => ⟨.error e, st, store, []⟩
    | none =>
      let key : TKey := (user_id, project_id)
      let st1 := { st with stats :=
        { st.stats with total_requests := st.stats.total_requests + 1 } }
      match alLookup st1.pool key with
      | some info =>
          let idle_seconds := env.now - info.last_activity
          if idle_seconds < 30 then
            ⟨.ok info.sandbox_id,
             { st1 with pool := alInsert st1.pool key (info.update_activity env.now) },
             store, []⟩
          else
            match env.healthOutcome with
            | none =>
                ⟨.ok info.sandbox_id,
                 { st1 with
                    pool := alInsert st1.pool key (info.update_activity env.now) },
                 store, [Ev.health]⟩
            | some _ =>
                let r := removeSandbox env st1 store key
                let c := stepCacheAndCreate cfg env r.state r.store user_id project_id
                ⟨c.result, c.state, c.store, [Ev.health] ++ r.trace ++ c.trace⟩
      | none => stepCacheAndCreate cfg env st1 store user_id project_id

/-- `close_sandbox(user_id, project_id)`: validate, `_remove_sandbox`, then a
second explicit `_remove_cached_sandbox_id`. -/
def close_sandbox (env : CallEnv) (st : ManagerState) (store : Store)
    (user_id project_id : String) : Except Exc Unit × RemOut :=
  match validate_userid_projectid user_id project_id with
  | some e => (.error e, ⟨st, store, []⟩)
  | none =>
      let r := removeSandbox env st store (user_id, project_id)
      let d := removeCachedSandboxId (isRedisAvailable r.state env) env.delOutcome
          r.store (getRedisKey user_id project_id)
      (.ok (), ⟨r.state, d.store, r.trace ++ d.trace⟩)

/-- The removal predicate of one `_cleanup_loop` cycle:
`if is_idle: remove elif is_expired: remove`. -/
def shouldRemove (cfg : SandboxConfig) (now : ℤ) (info : SandboxInfo) : Bool :=
  if info.is_idle cfg.idle_timeout now then true
  else if info.is_expired cfg.max_sandbox_age now then true
  else false

/-- One cycle of `_cleanup_loop` (after its 30s sleep): if not yet
initialized, do nothing; else, under the pool lock, collect the keys of
idle or expired entries, then (after releasing the lock) remove each via
`_remove_sandbox`. -/
def cleanupCycle (env : CallEnv) (st : ManagerState) (store : Store) : RemOut :=
  match st.config with
  | none => ⟨st, store, []⟩
  | some cfg =>
      let keys_to_remove :=
        (st.pool.filter (fun kv => shouldRemove cfg env.now kv.2)).map (·.1)
      keys_to_remove.foldl
        (fun acc key =>
          let r := removeSandbox env acc.state acc.store key
          ⟨r.state, r.store, acc.trace ++ r.trace⟩)
        ⟨st, store, [Ev.acqPool, Ev.relPool]⟩

/-- The statistics dictionary returned by `get_stats`: the raw counters with
`active_sandboxes` overridden by the live pool size, plus `redis_enabled`
and the guarded `cache_hit_rate`. -/
structure StatsView where
  total_sandboxes_created : Nat
  total_requests : Nat
  active_sandboxes : Nat
  cleaned_up_sandboxes : Nat
  rejected_requests : Nat
  redis_cache_hits : Nat
  redis_cache_misses : Nat
  redis_enabled : Bool
  cache_hit_rate : ℚ
deriving Repr, DecidableEq

/-- `get_stats`. -/
def get_stats (st : ManagerState) : StatsView :=
  { total_sandboxes_created := st.stats.total_sandboxes_created
    total_requests := st.stats.total_requests
    active_sandboxes := st.pool.length
    cleaned_up_sandboxes := st.stats.cleaned_up_sandboxes
    rejected_requests := st.stats.rejected_requests
    redis_cache_hits := st.stats.redis_cache_hits
    redis_cache_misses := st.stats.redis_cache_misses
    redis_enabled := st.redisPresent
    cache_hit_rate :=
      if st.stats.redis_cache_hits + st.stats.redis_cache_misses > 0 then
        (st.stats.redis_cache_hits : ℚ) /
          ((st.stats.redis_cache_hits : ℚ) + (st.stats.redis_cache_misses : ℚ))
      else 0 }

/-- Number of `AsyncSandbox.create` attempts recorded in a trace. -/
def createCount (tr : List Ev) : Nat :=
  (tr.filter (fun e => match e with | .create => true | _ => false)).length

/-- Number of remote `kill` calls recorded in a trace. -/
def killCount (tr : List Ev) : Nat :=
  (tr.filter (fun e => match e with | .kill _ => true | _ => false)).length

/-- The sleep durations recorded in a trace, in order. -/
def sleepsOf (tr : List Ev) : List ℚ :=
  tr.filterMap (fun e => match e with | .sleepEv d => some d | _ => none)

/-- Is this event a remote sandbox call or a cache call?  (Everything except
lock transitions and sleeps.) -/
def isRemoteOrCache : Ev → Bool
  | .kill _ | .health | .connect _ | .create
  | .redisGet | .redisSet | .redisDel => true
  | _ => false

/-- Pool-lock depth transition of one event. -/
def depthStep (d : Nat) : Ev → Nat
  | .acqPool => d + 1
  | .relPool => d - 1
  | _ => d

/-- Does the trace contain a remote or cache call performed while the
pool-wide lock is held (`d` is the lock depth at the start of the trace)? -/
def existsRemoteUnderLock : Nat → List Ev → Bool
  | _, [] => false
  | d, e :: rest =>
      (isRemoteOrCache e && decide (0 < d)) ||
        existsRemoteUnderLock (depthStep d e) rest

/-- The lock discipline actually implemented by the code: every remote
health / connect / create call and every cache call happens at lock depth
0 (outside the pool-wide lock), while every remote kill happens at lock
depth 1 (inside the pool-wide lock, as `_remove_sandbox` does). -/
def okAt (d : Nat) : Ev → Bool
  | .redisGet | .redisSet | .redisDel | .health | .connect _ | .create => d == 0
  | .kill _ => d == 1
  | _ => true

/-- Does the whole trace obey `okAt` (starting at lock depth `d`)? -/
def lockDiscipline : Nat → List Ev → Bool
  | _, [] => true
  | d, e :: rest => okAt d e && lockDiscipline (depthStep d e) rest

/-! ### Association-list lemmas -/

theorem alLookup_map_replace {K V : Type} [DecidableEq K] (l : List (K × V))
    (k : K) (v : V) (h : (alLookup l k).isSome) :
    alLookup (l.map (fun kv => if kv.1 = k then (k, v) else kv)) k = some v := by
  induction l with
  | nil => simp [alLookup] at h
  | cons hd tl ih =>
      by_cases hk : hd.1 = k
      · simp only [List.map_cons, if_pos hk]
        simp [alLookup]
      · simp only [List.map_cons, if_neg hk]
        have h' : (alLookup tl k).isSome := by
          simpa [alLookup, hk] using h
        simpa [alLookup, hk] using ih h'

theorem alLookup_append_absent {K V : Type} [DecidableEq K] (l : List (K × V))
    (k : K) (v : V) (h : alLookup l k = none) :
    alLookup (l ++ [(k, v)]) k = some v := by
  induction l with
  | nil => simp [alLookup]
  | cons hd tl ih =>
      by_cases hk : hd.1 = k
      · simp [alLookup, hk] at h
      · have h' : alLookup tl k = none := by
          simpa [alLookup, hk] using h
        simpa [alLookup, hk] using ih h'

theorem alLookup_alInsert {K V : Type} [DecidableEq K] (l : List (K × V))
    (k : K) (v : V) : alLookup (alInsert l k v) k = some v := by
  by_cases h : (alLookup l k).isSome
  · simp only [alInsert, h, if_pos]
    exact alLookup_map_replace l k v h
  · simp only [alInsert, h, if_false]
    exact alLookup_append_absent l k v (Option.not_isSome_iff_eq_none.mp h)

theorem alErase_eq_filter {K V : Type} [DecidableEq K] (l : List (K × V))
    (k : K) : alErase l k = l.filter (fun kv => decide ¬(kv.1 = k)) := by
  induction l with
  | nil => rfl
  | cons hd tl ih =>
      by_cases hk : hd.1 = k
      · simp [alErase, hk, ih]
      · simp [alErase, hk, ih]

theorem alLookup_alErase_self {K V : Type} [DecidableEq K] (l : List (K × V))
    (k : K) : alLookup (alErase l k) k = none := by
  induction l with
  | nil => rfl
  | cons hd tl ih =>
      by_cases hk : hd.1 = k
      · simpa [alErase, hk] using ih
      · simpa [alErase, alLookup, hk] using ih

theorem alLookup_alErase_ne {K V : Type} [DecidableEq K] (l : List (K × V))
    (k k' : K) (h : k' ≠ k) : alLookup (alErase l k) k' = alLookup l k' := by
  induction l with
  | nil => rfl
  | cons hd tl ih =>
      have hkk' : ¬ k = k' := fun hc => h hc.symm
      by_cases hk : hd.1 = k
      · simp [alErase, alLookup, hk, hkk', ih]
      · by_cases hk' : hd.1 = k'
        · simp [alErase, alLookup, hk, hk', h]
        · simp [alErase, alLookup, hk, hk', ih]

theorem alLookup_isSome_iff_mem {K V : Type} [DecidableEq K]
    (l : List (K × V)) (k : K) :
    (alLookup l k).isSome ↔ k ∈ l.map Prod.fst := by
  induction l with
  | nil => simp [alLookup]
  | cons hd tl ih =>
      by_cases hk : hd.1 = k
      · simp [alLookup, hk]
      · simp only [alLookup, hk, if_false, List.map_cons, List.mem_cons, ih]
        constructor
        · exact Or.inr
        · rintro (h | h)
          · exact absurd h.symm hk
          · exact h

theorem mem_eq_of_nodup_keys {K V : Type} [DecidableEq K]
    {l : List (K × V)} (hnd : (l.map Prod.fst).Nodup) {kv kv' : K × V}
    (h1 : kv ∈ l) (h2 : kv' ∈ l) (hk : kv.1 = kv'.1) : kv = kv' := by
  induction l with
  | nil => simp at h1
  | cons hd tl ih =>
      simp only [List.map_cons, List.nodup_cons] at hnd
      rcases List.mem_cons.mp h1 with h1 | h1 <;>
        rcases List.mem_cons.mp h2 with h2 | h2
      · rw [h1, h2]
      · exfalso
        apply hnd.1
        rw [← h1, hk]
        exact List.mem_map_of_mem Prod.fst h2
      · exfalso
        apply hnd.1
        rw [← h2, ← hk]
        exact List.mem_map_of_mem Prod.fst h1
      · exact ih hnd.2 h1 h2

/-! ### Trace lemmas -/

theorem createCount_append (a b : List Ev) :
    createCount (a ++ b) = createCount a + createCount b := by
  simp [createCount, List.filter_append]

theorem killCount_append (a b : List Ev) :
    killCount (a ++ b) = killCount a + killCount b := by
  simp [killCount, List.filter_append]

theorem sleepsOf_append (a b : List Ev) :
    sleepsOf (a ++ b) = sleepsOf a ++ sleepsOf b := by
  simp [sleepsOf]

/-- The trace of a cache write is one or two `redisSet` events (or empty). -/
theorem cacheSandboxId_trace (avail : Bool) (o : Nat → CacheOp) (store : Store)
    (key sid : String) (ttl : Nat) :
    (cacheSandboxId avail o store key sid ttl).trace = [] ∨
    (cacheSandboxId avail o store key sid ttl).trace = [Ev.redisSet] ∨
    (cacheSandboxId avail o store key sid ttl).trace = [Ev.redisSet, Ev.redisSet] := by
  unfold cacheSandboxId
  repeat' split
  all_goals simp

/-- The trace of a cache delete is one or two `redisDel` events (or empty). -/
theorem removeCachedSandboxId_trace (avail : Bool) (o : Nat → CacheOp)
    (store : Store) (key : String) :
    (removeCachedSandboxId avail o store key).trace = [] ∨
    (removeCachedSandboxId avail o store key).trace = [Ev.redisDel] ∨
    (removeCachedSandboxId avail o store key).trace = [Ev.redisDel, Ev.redisDel] := by
  unfold removeCachedSandboxId
  repeat' split
  all_goals simp

/-! ### Frame lemmas: which statistics fields each step leaves unchanged -/

theorem getCachedSandboxId_total (avail : Bool) (o : Nat → CacheOp)
    (store : Store) (key : String) (stats : Stats) :
    (getCachedSandboxId avail o store key stats).stats.total_requests =
      stats.total_requests := by
  unfold getCachedSandboxId
  repeat' split
  all_goals rfl

theorem createLoop_total (cfg : SandboxConfig) (env : CallEnv)
    (st : ManagerState) (store : Store) (u p : String) :
    ∀ rem attempt,
      (createLoop cfg env st store u p rem attempt).state.stats.total_requests =
        st.stats.total_requests := by
  intro rem
  induction rem with
  | zero => intro attempt; rfl
  | succ r ih =>
      intro attempt
      unfold createLoop
      split
      · rfl
      · split
        · simpa using ih (attempt + 1)
        · rfl
      · rfl

theorem enforceResourceLimits_total (cfg : SandboxConfig) (u : String)
    (st : ManagerState) :
    (enforceResourceLimits cfg u st).2.stats.total_requests =
      st.stats.total_requests := by
  unfold enforceResourceLimits
  split
  · rfl
  · dsimp only
    split <;> rfl

theorem stepCreate_total (cfg : SandboxConfig) (env : CallEnv)
    (st : ManagerState) (store : Store) (u p : String) :
    (stepCreate cfg env st store u p).state.stats.total_requests =
      st.stats.total_requests := by
  have h2 := enforceResourceLimits_total cfg u st
  unfold stepCreate
  rcases h : enforceResourceLimits cfg u st with ⟨oe, st2⟩
  rw [h] at h2
  cases oe
  · simpa [createSandboxForUser, createLoop_total] using h2
  · simpa using h2

theorem stepCacheAndCreate_total (cfg : SandboxConfig) (env : CallEnv)
    (st : ManagerState) (store : Store) (u p : String) :
    (stepCacheAndCreate cfg env st store u p).state.stats.total_requests =
      st.stats.total_requests := by
  have hg := getCachedSandboxId_total (isRedisAvailable st env) env.getOutcome
      store (getRedisKey u p) st.stats
  unfold stepCacheAndCreate
  dsimp only
  rcases hr : (getCachedSandboxId (isRedisAvailable st env) env.getOutcome store
      (getRedisKey u p) st.stats).result with _ | sid
  · simpa [stepCreate_total] using hg
  · rcases hco : env.connectOutcome with _ | e
    · by_cases hh : env.reconnectHealthOk
      · simpa [hh] using hg
      · simpa [hh, stepCreate_total] using hg
    · simpa [stepCreate_total] using hg

theorem removeSandbox_total (env : CallEnv) (st : ManagerState) (store : Store)
    (key : TKey) :
    (removeSandbox env st store key).state.stats.total_requests =
      st.stats.total_requests := by
  unfold removeSandbox
  split <;> rfl

theorem createLoop_hits (cfg : SandboxConfig) (env : CallEnv)
    (st : ManagerState) (store : Store) (u p : String) :
    ∀ rem attempt,
      (createLoop cfg env st store u p rem attempt).state.stats.redis_cache_hits =
        st.stats.redis_cache_hits := by
  intro rem
  induction rem with
  | zero => intro attempt; rfl
  | succ r ih =>
      intro attempt
      unfold createLoop
      split
      · rfl
      · split
        · simpa using ih (attempt + 1)
        · rfl
      · rfl

theorem createLoop_misses (cfg : SandboxConfig) (env : CallEnv)
    (st : ManagerState) (store : Store) (u p : String) :
    ∀ rem attempt,
      (createLoop cfg env st store u p rem attempt).state.stats.redis_cache_misses =
        st.stats.redis_cache_misses := by
  intro rem
  induction rem with
  | zero => intro attempt; rfl
  | succ r ih =>
      intro attempt
      unfold createLoop
      split
      · rfl
      · split
        · simpa using ih (attempt + 1)
        · rfl
      · rfl

theorem enforceResourceLimits_hits (cfg : SandboxConfig) (u : String)
    (st : ManagerState) :
    (enforceResourceLimits cfg u st).2.stats.redis_cache_hits =
      st.stats.redis_cache_hits := by
  unfold enforceResourceLimits
  split
  · rfl
  · dsimp only
    split <;> rfl

theorem enforceResourceLimits_misses (cfg : SandboxConfig) (u : String)
    (st : ManagerState) :
    (enforceResourceLimits cfg u st).2.stats.redis_cache_misses =
      st.stats.redis_cache_misses := by
  unfold enforceResourceLimits
  split
  · rfl
  · dsimp only
    split <;> rfl

theorem stepCreate_hits (cfg : SandboxConfig) (env : CallEnv)
    (st : ManagerState) (store : Store) (u p : String) :
    (stepCreate cfg env st store u p).state.stats.redis_cache_hits =
      st.stats.redis_cache_hits := by
  have h2 := enforceResourceLimits_hits cfg u st
  unfold stepCreate
  rcases h : enforceResourceLimits cfg u st with ⟨oe, st2⟩
  rw [h] at h2
  cases oe
  · simpa [createSandboxForUser, createLoop_hits] using h2
  · simpa using h2

theorem stepCreate_misses (cfg : SandboxConfig) (env : CallEnv)
    (st : ManagerState) (store : Store) (u p : String) :
    (stepCreate cfg env st store u p).state.stats.redis_cache_misses =
      st.stats.redis_cache_misses := by
  have h2 := enforceResourceLimits_misses cfg u st
  unfold stepCreate
  rcases h : enforceResourceLimits cfg u st with ⟨oe, st2⟩
  rw [h] at h2
  cases oe
  · simpa [createSandboxForUser, createLoop_misses] using h2
  · simpa using h2

/-! ### Path-reduction lemmas -/

/-- For an initialized manager, valid tenant ids and an in-process pool miss,
`get_sandbox` is the `total_requests` bump followed by the cache/creation
steps. -/
theorem get_sandbox_pool_miss (env : CallEnv) (st : ManagerState)
    (store : Store) (u p : String) (cfg : SandboxConfig)
    (hcfg : st.config = some cfg) (hu : u ≠ "") (hp : p ≠ "")
    (hpool : alLookup st.pool (u, p) = none) :
    get_sandbox env st store u p =
      stepCacheAndCreate cfg env
        { st with stats :=
            { st.stats with total_requests := st.stats.total_requests + 1 } }
        store u p := by
  have hval : validate_userid_projectid u p = none := by
    simp [validate_userid_projectid, hu, hp]
  unfold get_sandbox
  rw [hcfg, hval]
  dsimp only
  rw [hpool]

/-- When the Redis ping fails, the cache check degrades to an immediate miss
(no `redis.get` attempt, no counter change) and the call is the creation
step. -/
theorem stepCacheAndCreate_noRedis (cfg : SandboxConfig) (env : CallEnv)
    (st : ManagerState) (store : Store) (u p : String)
    (hping : env.pingOk = false) :
    stepCacheAndCreate cfg env st store u p = stepCreate cfg env st store u p := by
  unfold stepCacheAndCreate
  have havail : isRedisAvailable st env = false := by
    simp [isRedisAvailable, hping]
  rw [havail]
  dsimp only [getCachedSandboxId, Bool.not_false, if_pos]
  rfl

/-- Redis healthy, cached id found, reconnect raises: the stale cache
record is evicted (no miss counter change — the lookup already counted a
hit) and the call falls through to the creation step. -/
theorem stepCacheAndCreate_hit_reconnectFail (cfg : SandboxConfig)
    (env : CallEnv) (st : ManagerState) (store : Store) (u p sid : String)
    (e : RemoteErr)
    (hpresent : st.redisPresent = true) (hping : env.pingOk = true)
    (hget : env.getOutcome 0 = .ok)
    (hstore : alLookup store (getRedisKey u p) = some sid)
    (hconn : env.connectOutcome = some e)
    (hdel : env.delOutcome 0 = .ok) :
    stepCacheAndCreate cfg env st store u p =
      ⟨(stepCreate cfg env
          { st with stats := { st.stats with
              redis_cache_hits := st.stats.redis_cache_hits + 1 } }
          (alErase store (getRedisKey u p)) u p).result,
       (stepCreate cfg env
          { st with stats := { st.stats with
              redis_cache_hits := st.stats.redis_cache_hits + 1 } }
          (alErase store (getRedisKey u p)) u p).state,
       (stepCreate cfg env
          { st with stats := { st.stats with
              redis_cache_hits := st.stats.redis_cache_hits + 1 } }
          (alErase store (getRedisKey u p)) u p).store,
       [Ev.redisGet, Ev.connect sid, Ev.redisDel] ++
         (stepCreate cfg env
            { st with stats := { st.stats with
                redis_cache_hits := st.stats.redis_cache_hits + 1 } }
            (alErase store (getRedisKey u p)) u p).trace⟩ := by
  have havail : isRedisAvailable st env = true := by
    simp [isRedisAvailable, hpresent, hping]
  unfold stepCacheAndCreate
  rw [havail]
  unfold getCachedSandboxId
  rw [hget]
  dsimp only
  rw [hstore]
  dsimp only
  rw [hconn]
  dsimp only
  unfold removeCachedSandboxId
  rw [hdel]
  rfl

/-- Redis healthy but the store has no record under the tenant's key: the
lookup misses (bumping the miss counter) and the call is the creation
step. -/
theorem stepCacheAndCreate_missStore (cfg : SandboxConfig) (env : CallEnv)
    (st : ManagerState) (store : Store) (u p : String)
    (hpresent : st.redisPresent = true) (hping : env.pingOk = true)
    (hget : env.getOutcome 0 = .ok)
    (hstore : alLookup store (getRedisKey u p) = none) :
    stepCacheAndCreate cfg env st store u p =
      ⟨(stepCreate cfg env
          { st with stats := { st.stats with
              redis_cache_misses := st.stats.redis_cache_misses + 1 } }
          store u p).result,
       (stepCreate cfg env
          { st with stats := { st.stats with
              redis_cache_misses := st.stats.redis_cache_misses + 1 } }
          store u p).state,
       (stepCreate cfg env
          { st with stats := { st.stats with
              redis_cache_misses := st.stats.redis_cache_misses + 1 } }
          store u p).store,
       [Ev.redisGet] ++
         (stepCreate cfg env
            { st with stats := { st.stats with
                redis_cache_misses := st.stats.redis_cache_misses + 1 } }
            store u p).trace⟩ := by
  have havail : isRedisAvailable st env = true := by
    simp [isRedisAvailable, hpresent, hping]
  unfold stepCacheAndCreate
  rw [havail]
  unfold getCachedSandboxId
  rw [hget]
  dsimp only
  rw [hstore]
  rfl

/-- `_remove_sandbox` on a present key (with Redis healthy): kill under the
pool lock, pool entry deleted, `cleaned_up_sandboxes` bumped,
`active_sandboxes` refreshed, then the tenant's cache record evicted. -/
theorem removeSandbox_present (env : CallEnv) (st : ManagerState)
    (store : Store) (key : TKey) (info : SandboxInfo)
    (hpool : alLookup st.pool key = some info)
    (hpresent : st.redisPresent = true) (hping : env.pingOk = true)
    (hdel : env.delOutcome 0 = .ok) :
    removeSandbox env st store key =
      ⟨{ st with
          pool := alErase st.pool key,
          stats := { st.stats with
            active_sandboxes := (alErase st.pool key).length,
            cleaned_up_sandboxes := st.stats.cleaned_up_sandboxes + 1 } },
       alErase store (getRedisKey key.1 key.2),
       [Ev.acqPool, Ev.kill (env.killOk key), Ev.relPool, Ev.redisDel]⟩ := by
  unfold removeSandbox
  rw [hpool]
  dsimp only
  unfold removeCachedSandboxId
  have havail : isRedisAvailable
      { st with
        pool := alErase st.pool key,
        stats := { st.stats with
          active_sandboxes := (alErase st.pool key).length,
          cleaned_up_sandboxes := st.stats.cleaned_up_sandboxes + 1 } } env = true := by
    simp [isRedisAvailable, hpresent, hping]
  rw [havail, hdel]
  rfl

/-! ### Concrete fixtures for witnesses and counterexamples -/

/-- The default configuration. -/
def cfg0 : SandboxConfig := {}

/-- A freshly initialized manager: default config, Redis client present,
empty pool, zeroed statistics. -/
def st0 : ManagerState :=
  { config := some cfg0, redisPresent := true, pool := [], stats := {} }

/-- A benign environment: Redis healthy, all remote calls succeed, creation
yields sandbox id `sb-1`, current time 100. -/
def envA : CallEnv :=
  { now := 100, pingOk := true,
    getOutcome := fun _ => .ok, setOutcome := fun _ => .ok,
    delOutcome := fun _ => .ok,
    healthOutcome := none, connectOutcome := none, reconnectHealthOk := true,
    createOutcome := fun _ => .ok "sb-1", killOk := fun _ => true }

/-! ### Claim theorems -/

/-- C10: `get_stats` never fails on its derived fields: `cache_hit_rate`
equals `hits / (hits + misses)` when `hits + misses > 0` and `0` when both
counters are zero (the division is guarded), and `active_sandboxes` equals
the current pool size. -/
theorem C10_get_stats_derived (st : ManagerState) :
    (0 < st.stats.redis_cache_hits + st.stats.redis_cache_misses →
      (get_stats st).cache_hit_rate =
        (st.stats.redis_cache_hits : ℚ) /
          ((st.stats.redis_cache_hits : ℚ) + (st.stats.redis_cache_misses : ℚ))) ∧
    (st.stats.redis_cache_hits = 0 → st.stats.redis_cache_misses = 0 →
      (get_stats st).cache_hit_rate = 0) ∧
    (get_stats st).active_sandboxes = st.pool.length := by
  refine ⟨?_, ?_, rfl⟩
  · intro h
    simp [get_stats, h]
  · intro h1 h2
    simp [get_stats, h1, h2]

/-- A statistics state with one hit and one miss. -/
def stHitMiss : ManagerState :=
  { config := none, redisPresent := false, pool := [],
    stats := { redis_cache_hits := 1, redis_cache_misses := 1 } }

/-- Witness for C10 at a concrete statistics state. -/
theorem C10_witness :
    (get_stats stHitMiss).cache_hit_rate = 1 / 2 ∧
    (get_stats st0).cache_hit_rate = 0 ∧
    (get_stats stHitMiss).active_sandboxes = 0 := by
  refine ⟨((C10_get_stats_derived stHitMiss).1 (by decide)).trans
      (by norm_num [stHitMiss]), ?_, ?_⟩
  · exact (C10_get_stats_derived st0).2.1 rfl rfl
  · exact (C10_get_stats_derived stHitMiss).2.2

/-- C2's claim fails on the code: a `get_sandbox` call with an invalid
(empty) `user_id` raises the validation `ValueError` before the
`total_requests` increment, so `total_requests` stays 0 — the claim says
it would still be incremented. -/
theorem C2_counterexample :
    (get_sandbox envA st0 [] "" "p1").result =
      .error (.invalidTenant "user_id must be a non-empty string") ∧
    (get_sandbox envA st0 [] "" "p1").state.stats.total_requests = 0 := by
  exact ⟨rfl, rfl⟩

/-- C2 amended: `get_sandbox` increments `total_requests` by exactly one
after the initialization check and tenant-id validation but before the
pool, cache and creation steps, so every call with valid tenant ids —
whatever its later outcome — increments it; a call with an invalid
`user_id` or `project_id` does not. -/
theorem C2_amended (env : CallEnv) (st : ManagerState) (store : Store)
    (u p : String) (cfg : SandboxConfig) (hcfg : st.config = some cfg)
    (hu : u ≠ "") (hp : p ≠ "") :
    (get_sandbox env st store u p).state.stats.total_requests =
      st.stats.total_requests + 1 := by
  have hval : validate_userid_projectid u p = none := by
    simp [validate_userid_projectid, hu, hp]
  unfold get_sandbox
  rw [hcfg, hval]
  dsimp only
  rcases hl : alLookup st.pool (u, p) with _ | info
  · simp [stepCacheAndCreate_total]
  · by_cases hfresh : env.now - info.last_activity < 30
    · simp [hfresh]
    · rcases hh : env.healthOutcome with _ | e
      · simp [hfresh]
      · simp [hfresh, stepCacheAndCreate_total, removeSandbox_total]

/-- Witness for C2 amended: a concrete valid call increments
`total_requests` from 0 to 1. -/
theorem C2_amended_witness :
    (get_sandbox envA st0 [] "alice" "p1").state.stats.total_requests = 0 + 1 :=
  C2_amended envA st0 [] "alice" "p1" cfg0 rfl (by decide) (by decide)

/-- C8: a pool entry used less than 30 seconds ago is returned directly —
same sandbox id, no remote or cache call at all (empty trace), activity
refreshed — and a second call within the freshness window again returns the
same sandbox id with no remote call. -/
theorem C8_fresh_pool_hit (env env2 : CallEnv) (st : ManagerState)
    (store : Store) (u p : String) (cfg : SandboxConfig) (info : SandboxInfo)
    (hcfg : st.config = some cfg) (hu : u ≠ "") (hp : p ≠ "")
    (hpool : alLookup st.pool (u, p) = some info)
    (hfresh : env.now - info.last_activity < 30)
    (hfresh2 : env2.now - env.now < 30) :
    (get_sandbox env st store u p).result = .ok info.sandbox_id ∧
    (get_sandbox env st store u p).trace = [] ∧
    (get_sandbox env st store u p).store = store ∧
    (get_sandbox env st store u p).state.pool =
      alInsert st.pool (u, p) (info.update_activity env.now) ∧
    (get_sandbox env2 (get_sandbox env st store u p).state
        (get_sandbox env st store u p).store u p).result = .ok info.sandbox_id ∧
    (get_sandbox env2 (get_sandbox env st store u p).state
        (get_sandbox env st store u p).store u p).trace = [] := by
  have hval : validate_userid_projectid u p = none := by
    simp [validate_userid_projectid, hu, hp]
  have hout : get_sandbox env st store u p =
      ⟨.ok info.sandbox_id,
       { st with
          pool := alInsert st.pool (u, p) (info.update_activity env.now),
          stats := { st.stats with
            total_requests := st.stats.total_requests + 1 } },
       store, []⟩ := by
    unfold get_sandbox
    rw [hcfg, hval]
    dsimp only
    rw [hpool]
    dsimp only
    rw [if_pos hfresh]
  rw [hout]
  refine ⟨rfl, rfl, rfl, rfl, ?_⟩
  have hpool2 : alLookup (alInsert st.pool (u, p) (info.update_activity env.now))
      (u, p) = some (info.update_activity env.now) := alLookup_alInsert _ _ _
  have hfresh2' : env2.now - (info.update_activity env.now).last_activity < 30 := by
    simpa [SandboxInfo.update_activity] using hfresh2
  constructor
  · unfold get_sandbox
    rw [hcfg, hval]
    dsimp only
    rw [hpool2]
    dsimp only
    rw [if_pos hfresh2']
    simp [SandboxInfo.update_activity]
  · unfold get_sandbox
    rw [hcfg, hval]
    dsimp only
    rw [hpool2]
    dsimp only
    rw [if_pos hfresh2']

/-- Witness for C8: a pool entry last used at time 95 is fresh at time 100;
both back-to-back calls return `sb-1` with an empty trace. -/
theorem C8_witness :
    (get_sandbox envA
        { st0 with pool := [(("alice", "p1"),
            { sandbox_id := "sb-1", user_id := "alice", project_id := "p1",
              created_at := 90, last_activity := 95 })] }
        [] "alice" "p1").result = .ok "sb-1" ∧
    (get_sandbox envA
        { st0 with pool := [(("alice", "p1"),
            { sandbox_id := "sb-1", user_id := "alice", project_id := "p1",
              created_at := 90, last_activity := 95 })] }
        [] "alice" "p1").trace = [] := by
  have h := C8_fresh_pool_hit envA envA
      { st0 with pool := [(("alice", "p1"),
          { sandbox_id := "sb-1", user_id := "alice", project_id := "p1",
            created_at := 90, last_activity := 95 })] }
      [] "alice" "p1" cfg0
      { sandbox_id := "sb-1", user_id := "alice", project_id := "p1",
        created_at := 90, last_activity := 95 }
      rfl (by decide) (by decide) (by decide) (by norm_num [envA]) (by norm_num [envA])
  exact ⟨h.1, h.2.1⟩

/-- C5: a `get_sandbox` call that reaches the creation step when the pool
already holds `max_total_sandboxes` entries, or already holds
`max_sandboxes_per_user` entries of this user, fails with the
resource-exhausted error identifying the limit (the global check being
applied first), increments `rejected_requests` by one, and leaves the pool
and the Redis store unchanged. -/
theorem C5_resource_limits (env : CallEnv) (st : ManagerState) (store : Store)
    (u p : String) (cfg : SandboxConfig)
    (hcfg : st.config = some cfg) (hu : u ≠ "") (hp : p ≠ "")
    (hpool : alLookup st.pool (u, p) = none) (hping : env.pingOk = false)
    (hlim : cfg.max_total_sandboxes ≤ st.pool.length ∨
        cfg.max_sandboxes_per_user ≤
          (st.pool.filter (fun kv => kv.1.1 = u)).length) :
    (get_sandbox env st store u p).result =
      .error (.resourceExhausted
        (if cfg.max_total_sandboxes ≤ st.pool.length then .globalLimit
         else .perUserLimit)) ∧
    (get_sandbox env st store u p).state.pool = st.pool ∧
    (get_sandbox env st store u p).store = store ∧
    (get_sandbox env st store u p).state.stats =
      { st.stats with
          total_requests := st.stats.total_requests + 1,
          rejected_requests := st.stats.rejected_requests + 1 } := by
  rw [get_sandbox_pool_miss env st store u p cfg hcfg hu hp hpool,
      stepCacheAndCreate_noRedis cfg env _ store u p hping]
  unfold stepCreate enforceResourceLimits
  by_cases hg : cfg.max_total_sandboxes ≤ st.pool.length
  · rw [if_pos hg]
    simp only [ge_iff_le]
    rw [if_pos hg]
    exact ⟨rfl, trivial, trivial, trivial⟩
  · have hpu := hlim.resolve_left hg
    rw [if_neg hg]
    simp only [ge_iff_le]
    rw [if_neg hg]
    rw [if_pos hpu]
    exact ⟨rfl, rfl, rfl, rfl⟩

/-- A configuration whose global limit is one sandbox. -/
def cfgOneTotal : SandboxConfig := { max_total_sandboxes := 1 }

/-- A pool entry for tenant `("bob", "q1")`. -/
def infoBob : SandboxInfo :=
  { sandbox_id := "sb-b", user_id := "bob", project_id := "q1",
    created_at := 0, last_activity := 0 }

/-- A manager whose pool is full relative to `cfgOneTotal`. -/
def stFull : ManagerState :=
  { config := some cfgOneTotal, redisPresent := true,
    pool := [(("bob", "q1"), infoBob)], stats := {} }

/-- An environment whose Redis ping fails. -/
def envNoRedis : CallEnv := { envA with pingOk := false }

/-- Witness for C5 at a concrete full pool: the global limit is reported
and `rejected_requests` becomes 1. -/
theorem C5_witness :
    (get_sandbox envNoRedis stFull [] "alice" "p1").result =
      .error (.resourceExhausted .globalLimit) ∧
    (get_sandbox envNoRedis stFull [] "alice" "p1").state.pool = stFull.pool ∧
    (get_sandbox envNoRedis stFull [] "alice" "p1").state.stats.rejected_requests
      = 1 := by
  have h := C5_resource_limits envNoRedis stFull [] "alice" "p1" cfgOneTotal
      rfl (by decide) (by decide) (by decide) rfl (Or.inl (by decide))
  refine ⟨?_, h.2.1, ?_⟩
  · rw [h.1]
    norm_num [stFull, cfgOneTotal]
  · rw [h.2.2.2]
    rfl

/-- An environment where the reconnect to a cached sandbox id times out and
a subsequent creation yields `sb-2`. -/
def envReconnFail : CallEnv :=
  { envA with
    connectOutcome := some .timeoutErr
    createOutcome := fun _ => .ok "sb-2" }

/-- A Redis store caching `sb-1` for tenant `("alice", "p1")`. -/
def storeAlice : Store := [("sandbox:alice:p1", "sb-1")]

/-- C1's claim fails on the code: with a cached id whose reconnect fails,
the record is evicted and creation proceeds, but the cache-miss counter is
NOT incremented (the lookup already counted a cache hit) — the claim says
it would be incremented by one. -/
theorem C1_counterexample :
    (get_sandbox envReconnFail st0 storeAlice "alice" "p1").result = .ok "sb-2" ∧
    (get_sandbox envReconnFail st0 storeAlice "alice" "p1").trace =
      [Ev.redisGet, Ev.connect "sb-1", Ev.redisDel, Ev.create, Ev.acqPool,
       Ev.relPool, Ev.redisSet] ∧
    (get_sandbox envReconnFail st0 storeAlice "alice" "p1").state.stats.redis_cache_hits
      = 1 ∧
    (get_sandbox envReconnFail st0 storeAlice "alice" "p1").state.stats.redis_cache_misses
      = 0 := by
  exact ⟨rfl, rfl, rfl, rfl⟩

/-- C1 amended: when the cache lookup returns a sandbox id but the
reconnect fails with any of the handled exceptions, the manager evicts the
cached record for the tenant key and proceeds to the creation step; the
cache-hit counter was incremented by the lookup, and the cache-miss counter
is unchanged. -/
theorem C1_amended (env : CallEnv) (st : ManagerState) (store : Store)
    (u p sid : String) (cfg : SandboxConfig) (e : RemoteErr)
    (hcfg : st.config = some cfg) (hu : u ≠ "") (hp : p ≠ "")
    (hpool : alLookup st.pool (u, p) = none)
    (hpresent : st.redisPresent = true) (hping : env.pingOk = true)
    (hget : env.getOutcome 0 = .ok)
    (hstore : alLookup store (getRedisKey u p) = some sid)
    (hconn : env.connectOutcome = some e)
    (hdel : env.delOutcome 0 = .ok) :
    get_sandbox env st store u p =
      ⟨(stepCreate cfg env
          { st with stats := { st.stats with
              total_requests := st.stats.total_requests + 1,
              redis_cache_hits := st.stats.redis_cache_hits + 1 } }
          (alErase store (getRedisKey u p)) u p).result,
       (stepCreate cfg env
          { st with stats := { st.stats with
              total_requests := st.stats.total_requests + 1,
              redis_cache_hits := st.stats.redis_cache_hits + 1 } }
          (alErase store (getRedisKey u p)) u p).state,
       (stepCreate cfg env
          { st with stats := { st.stats with
              total_requests := st.stats.total_requests + 1,
              redis_cache_hits := st.stats.redis_cache_hits + 1 } }
          (alErase store (getRedisKey u p)) u p).store,
       [Ev.redisGet, Ev.connect sid, Ev.redisDel] ++
         (stepCreate cfg env
            { st with stats := { st.stats with
                total_requests := st.stats.total_requests + 1,
                redis_cache_hits := st.stats.redis_cache_hits + 1 } }
            (alErase store (getRedisKey u p)) u p).trace⟩ ∧
    (get_sandbox env st store u p).state.stats.redis_cache_misses =
      st.stats.redis_cache_misses ∧
    (get_sandbox env st store u p).state.stats.redis_cache_hits =
      st.stats.redis_cache_hits + 1 := by
  have h1 := get_sandbox_pool_miss env st store u p cfg hcfg hu hp hpool
  have h2 := stepCacheAndCreate_hit_reconnectFail cfg env
      { st with stats :=
          { st.stats with total_requests := st.stats.total_requests + 1 } }
      store u p sid e hpresent hping hget hstore hconn hdel
  rw [h1, h2]
  exact ⟨rfl, by simp [stepCreate_misses], by simp [stepCreate_hits]⟩

/-- An environment where the health probe of a pool entry times out and a
subsequent creation yields `sb-2` (time 100, so any entry last active at
time 0 is stale). -/
def envHealthFail : CallEnv :=
  { envA with
    healthOutcome := some .timeoutErr
    createOutcome := fun _ => .ok "sb-2" }

/-- A manager whose pool holds a stale entry `sb-1` for
`("alice", "p1")` (last active at time 0). -/
def stStale : ManagerState :=
  { st0 with
    pool := [(("alice", "p1"),
      { sandbox_id := "sb-1", user_id := "alice", project_id := "p1",
        created_at := 0, last_activity := 0 })] }

/-- C3's claim fails on the code: after a failed health probe on a stale
pool entry, `_remove_sandbox` evicts the tenant's Redis record along with
the pool entry, so the subsequent cache lookup misses (`redis_cache_hits`
stays 0, `redis_cache_misses` becomes 1) and a NEW sandbox is created —
the claim says the cached id could still be returned. -/
theorem C3_counterexample :
    (get_sandbox envHealthFail stStale storeAlice "alice" "p1").result
      = .ok "sb-2" ∧
    (get_sandbox envHealthFail stStale storeAlice "alice" "p1").trace =
      [Ev.health, Ev.acqPool, Ev.kill true, Ev.relPool, Ev.redisDel,
       Ev.redisGet, Ev.create, Ev.acqPool, Ev.relPool, Ev.redisSet] ∧
    (get_sandbox envHealthFail stStale storeAlice "alice" "p1").state.stats.redis_cache_hits
      = 0 ∧
    (get_sandbox envHealthFail stStale storeAlice "alice" "p1").state.stats.redis_cache_misses
      = 1 := by
  refine ⟨rfl, by decide, by decide, by decide⟩

/-- C3 amended: when the remote health probe of a stale pool entry fails,
`get_sandbox` removes the tenant's pool entry AND (inside the same
`_remove_sandbox` call) evicts the tenant's Redis record, so the
subsequent cache lookup misses — the miss counter is incremented, the hit
counter is unchanged — and the call proceeds to the creation step. -/
theorem C3_amended (env : CallEnv) (st : ManagerState) (store : Store)
    (u p : String) (cfg : SandboxConfig) (info : SandboxInfo) (e : RemoteErr)
    (hcfg : st.config = some cfg) (hu : u ≠ "") (hp : p ≠ "")
    (hpool : alLookup st.pool (u, p) = some info)
    (hstale : ¬ env.now - info.last_activity < 30)
    (hhealth : env.healthOutcome = some e)
    (hpresent : st.redisPresent = true) (hping : env.pingOk = true)
    (hget : env.getOutcome 0 = .ok) (hdel : env.delOutcome 0 = .ok) :
    get_sandbox env st store u p =
      ⟨(stepCreate cfg env
          { st with
              pool := alErase st.pool (u, p),
              stats := { st.stats with
                total_requests := st.stats.total_requests + 1,
                active_sandboxes := (alErase st.pool (u, p)).length,
                cleaned_up_sandboxes := st.stats.cleaned_up_sandboxes + 1,
                redis_cache_misses := st.stats.redis_cache_misses + 1 } }
          (alErase store (getRedisKey u p)) u p).result,
       (stepCreate cfg env
          { st with
              pool := alErase st.pool (u, p),
              stats := { st.stats with
                total_requests := st.stats.total_requests + 1,
                active_sandboxes := (alErase st.pool (u, p)).length,
                cleaned_up_sandboxes := st.stats.cleaned_up_sandboxes + 1,
                redis_cache_misses := st.stats.redis_cache_misses + 1 } }
          (alErase store (getRedisKey u p)) u p).state,
       (stepCreate cfg env
          { st with
              pool := alErase st.pool (u, p),
              stats := { st.stats with
                total_requests := st.stats.total_requests + 1,
                active_sandboxes := (alErase st.pool (u, p)).length,
                cleaned_up_sandboxes := st.stats.cleaned_up_sandboxes + 1,
                redis_cache_misses := st.stats.redis_cache_misses + 1 } }
          (alErase store (getRedisKey u p)) u p).store,
       [Ev.health, Ev.acqPool, Ev.kill (env.killOk (u, p)), Ev.relPool,
        Ev.redisDel, Ev.redisGet] ++
         (stepCreate cfg env
            { st with
                pool := alErase st.pool (u, p),
                stats := { st.stats with
                  total_requests := st.stats.total_requests + 1,
                  active_sandboxes := (alErase st.pool (u, p)).length,
                  cleaned_up_sandboxes := st.stats.cleaned_up_sandboxes + 1,
                  redis_cache_misses := st.stats.redis_cache_misses + 1 } }
            (alErase store (getRedisKey u p)) u p).trace⟩ ∧
    (get_sandbox env st store u p).state.stats.redis_cache_misses =
      st.stats.redis_cache_misses + 1 ∧
    (get_sandbox env st store u p).state.stats.redis_cache_hits =
      st.stats.redis_cache_hits := by
  have hval : validate_userid_projectid u p = none := by
    simp [validate_userid_projectid, hu, hp]
  have hstep1 : get_sandbox env st store u p =
      ⟨(stepCacheAndCreate cfg env
          (removeSandbox env
            { st with stats := { st.stats with
                total_requests := st.stats.total_requests + 1 } }
            store (u, p)).state
          (removeSandbox env
            { st with stats := { st.stats with
                total_requests := st.stats.total_requests + 1 } }
            store (u, p)).store u p).result,
       (stepCacheAndCreate cfg env
          (removeSandbox env
            { st with stats := { st.stats with
                total_requests := st.stats.total_requests + 1 } }
            store (u, p)).state
          (removeSandbox env
            { st with stats := { st.stats with
                total_requests := st.stats.total_requests + 1 } }
            store (u, p)).store u p).state,
       (stepCacheAndCreate cfg env
          (removeSandbox env
            { st with stats := { st.stats with
                total_requests := st.stats.total_requests + 1 } }
            store (u, p)).state
          (removeSandbox env
            { st with stats := { st.stats with
                total_requests := st.stats.total_requests + 1 } }
            store (u, p)).store u p).store,
       [Ev.health] ++
         (removeSandbox env
            { st with stats := { st.stats with
                total_requests := st.stats.total_requests + 1 } }
            store (u, p)).trace ++
         (stepCacheAndCreate cfg env
            (removeSandbox env
              { st with stats := { st.stats with
                  total_requests := st.stats.total_requests + 1 } }
              store (u, p)).state
            (removeSandbox env
              { st with stats := { st.stats with
                  total_requests := st.stats.total_requests + 1 } }
              store (u, p)).store u p).trace⟩ := by
    unfold get_sandbox
    rw [hcfg, hval]
    dsimp only
    rw [hpool]
    dsimp only
    rw [if_neg hstale, hhealth]
  have hrem := removeSandbox_present env
      { st with stats := { st.stats with
          total_requests := st.stats.total_requests + 1 } }
      store (u, p) info hpool hpresent hping hdel
  have hmiss := stepCacheAndCreate_missStore cfg env
      { st with
          pool := alErase st.pool (u, p),
          stats := { st.stats with
            total_requests := st.stats.total_requests + 1,
            active_sandboxes := (alErase st.pool (u, p)).length,
            cleaned_up_sandboxes := st.stats.cleaned_up_sandboxes + 1 } }
      (alErase store (getRedisKey u p)) u p hpresent hping hget
      (alLookup_alErase_self store (getRedisKey u p))
  rw [hstep1, hrem]
  dsimp only
  rw [hmiss]
  exact ⟨rfl, by simp [stepCreate_misses], by simp [stepCreate_hits]⟩

/-- An environment in which every Redis operation (including the
availability ping) raises a connection-class error. -/
def envRedisDown : CallEnv :=
  { envA with
    pingOk := false
    getOutcome := fun _ => .connErr
    setOutcome := fun _ => .connErr
    delOutcome := fun _ => .connErr }

/-- Number of `redis.get` attempts recorded in a trace. -/
def redisGetCount (tr : List Ev) : Nat :=
  (tr.filter (fun e => match e with | .redisGet => true | _ => false)).length

/-- C9's claim fails on the code: when every cache operation raises a
connection error, the availability ping fails first, so the lookup
degrades to a miss with ZERO `redis.get` attempts — not "after one retry"
(which would be two attempts).  The call still succeeds via creation. -/
theorem C9_counterexample :
    (get_sandbox envRedisDown st0 [] "alice" "p1").result = .ok "sb-1" ∧
    (get_sandbox envRedisDown st0 [] "alice" "p1").trace =
      [Ev.create, Ev.acqPool, Ev.relPool] ∧
    redisGetCount (get_sandbox envRedisDown st0 [] "alice" "p1").trace = 0 := by
  exact ⟨rfl, rfl, rfl⟩

/-- C9 amended: if every cache operation raises a connection-class error,
no cache exception propagates out of `get_sandbox`: the availability ping
fails, so the lookup degrades to a miss immediately — with no retry and no
counter change (the one-retry loop applies only when the ping succeeds but
the data operation fails) — and the call falls through to creation,
returning the newly created sandbox when creation succeeds and the quotas
allow it; the Redis store is untouched. -/
theorem C9_amended (env : CallEnv) (st : ManagerState) (store : Store)
    (u p sid : String) (cfg : SandboxConfig)
    (hcfg : st.config = some cfg) (hu : u ≠ "") (hp : p ≠ "")
    (hpool : alLookup st.pool (u, p) = none)
    (hping : env.pingOk = false)
    (hmr : 1 ≤ cfg.max_retries)
    (hcr : env.createOutcome 1 = .ok sid)
    (hlim1 : st.pool.length < cfg.max_total_sandboxes)
    (hlim2 : (st.pool.filter (fun kv => kv.1.1 = u)).length <
        cfg.max_sandboxes_per_user) :
    get_sandbox env st store u p =
      ⟨.ok sid,
       { st with
          pool := alInsert st.pool (u, p)
            { sandbox_id := sid, user_id := u, project_id := p,
              created_at := env.now, last_activity := env.now },
          stats := { st.stats with
            total_sandboxes_created := st.stats.total_sandboxes_created + 1,
            total_requests := st.stats.total_requests + 1,
            active_sandboxes := (alInsert st.pool (u, p)
              { sandbox_id := sid, user_id := u, project_id := p,
                created_at := env.now, last_activity := env.now }).length } },
       store, [Ev.create, Ev.acqPool, Ev.relPool]⟩ := by
  rw [get_sandbox_pool_miss env st store u p cfg hcfg hu hp hpool,
      stepCacheAndCreate_noRedis cfg env _ store u p hping]
  unfold stepCreate enforceResourceLimits
  rw [if_neg (Nat.not_le.mpr hlim1)]
  dsimp only
  rw [if_neg (Nat.not_le.mpr hlim2)]
  obtain ⟨r, hr⟩ := Nat.exists_eq_succ_of_ne_zero (Nat.one_le_iff_ne_zero.mp hmr)
  unfold createSandboxForUser
  rw [hr]
  unfold createLoop
  rw [hcr]
  dsimp only
  unfold cacheSandboxId isRedisAvailable
  rw [hping]
  simp

/-- Witness for C9 amended at the concrete all-connection-errors
environment. -/
theorem C9_amended_witness :
    get_sandbox envRedisDown st0 [] "alice" "p1" =
      ⟨.ok "sb-1",
       { st0 with
          pool := alInsert st0.pool ("alice", "p1")
            { sandbox_id := "sb-1", user_id := "alice", project_id := "p1",
              created_at := envRedisDown.now,
              last_activity := envRedisDown.now },
          stats := { st0.stats with
            total_sandboxes_created := st0.stats.total_sandboxes_created + 1,
            total_requests := st0.stats.total_requests + 1,
            active_sandboxes := (alInsert st0.pool ("alice", "p1")
              { sandbox_id := "sb-1", user_id := "alice", project_id := "p1",
                created_at := envRedisDown.now,
                last_activity := envRedisDown.now }).length } },
       [], [Ev.create, Ev.acqPool, Ev.relPool]⟩ :=
  C9_amended envRedisDown st0 [] "alice" "p1" "sb-1" cfg0 rfl (by decide)
    (by decide) (by decide) rfl (by decide) rfl (by decide) (by decide)

theorem createCount_cacheSet (avail : Bool) (o : Nat → CacheOp) (store : Store)
    (key sid : String) (ttl : Nat) :
    createCount (cacheSandboxId avail o store key sid ttl).trace = 0 := by
  rcases cacheSandboxId_trace avail o store key sid ttl with h | h | h <;>
    rw [h] <;> rfl

theorem sleepsOf_cacheSet (avail : Bool) (o : Nat → CacheOp) (store : Store)
    (key sid : String) (ttl : Nat) :
    sleepsOf (cacheSandboxId avail o store key sid ttl).trace = [] := by
  rcases cacheSandboxId_trace avail o store key sid ttl with h | h | h <;>
    rw [h] <;> rfl

/-- Full characterization of the retry loop of `_create_sandbox_for_user`,
by induction on the remaining iterations: the number of `create` attempts
is bounded by the remaining iterations (and positive when any remain); the
recorded backoff sleeps are exactly `retry_delay * 2^(a-1)` for the failed
non-final attempts `a`; every attempt that was followed by another one had
a transient outcome; and the loop ends with the unexpected-error exception
exactly when the last attempt made was non-transient. -/
theorem createLoop_spec (cfg : SandboxConfig) (env : CallEnv)
    (st : ManagerState) (store : Store) (u p : String) :
    ∀ rem attempt, 1 ≤ attempt → attempt + rem = cfg.max_retries + 1 →
      createCount (createLoop cfg env st store u p rem attempt).trace ≤ rem ∧
      (1 ≤ rem →
        1 ≤ createCount (createLoop cfg env st store u p rem attempt).trace) ∧
      sleepsOf (createLoop cfg env st store u p rem attempt).trace =
        (List.range' attempt
            (createCount (createLoop cfg env st store u p rem attempt).trace - 1)).map
          (fun a => cfg.retry_delay * 2 ^ (a - 1)) ∧
      (∀ k, attempt ≤ k →
        k + 1 < attempt + createCount (createLoop cfg env st store u p rem attempt).trace →
        ∃ e2, env.createOutcome k = .transient e2) ∧
      ((createLoop cfg env st store u p rem attempt).result =
          .error .createUnexpected ↔
        1 ≤ createCount (createLoop cfg env st store u p rem attempt).trace ∧
        env.createOutcome
          (attempt + createCount (createLoop cfg env st store u p rem attempt).trace - 1) =
          .fatal) := by
  intro rem
  induction rem with
  | zero =>
      intro attempt h1 h2
      refine ⟨Nat.le_refl _, by omega, by simp [createLoop, sleepsOf, createCount],
        ?_, ?_⟩
      · intro k hk hkn
        simp only [createLoop, createCount, List.filter_nil, List.length_nil] at hkn
        omega
      · simp [createLoop, createCount]
  | succ r ih =>
      intro attempt h1 h2
      rcases ho : env.createOutcome attempt with sid | e | _
      · -- successful creation at this attempt
        simp only [createLoop]
        rw [ho]
        dsimp only
        rw [createCount_append, createCount_cacheSet,
          show createCount [Ev.create, Ev.acqPool, Ev.relPool] = 1 from rfl]
        refine ⟨by omega, fun _ => by omega, ?_, fun k hk hkn => by omega, ?_⟩
        · rw [sleepsOf_append, sleepsOf_cacheSet]
          simp [sleepsOf]
        · simp [ho]
      · -- transient failure at this attempt
        by_cases hlt : attempt < cfg.max_retries
        · have hr1 : 1 ≤ r := by omega
          obtain ⟨ihle, ihpos, ihsleep, ihtrans, ihiff⟩ :=
            ih (attempt + 1) (by omega) (by omega)
          have hn' := ihpos hr1
          simp only [createLoop]
          rw [ho]
          simp only [hlt, if_true]
          rw [createCount_append,
            show createCount [Ev.create,
              Ev.sleepEv (cfg.retry_delay * 2 ^ (attempt - 1))] = 1 from rfl]
          set n' := createCount
            (createLoop cfg env st store u p r (attempt + 1)).trace with hn'def
          refine ⟨by omega, fun _ => by omega, ?_, ?_, ?_⟩
          · rw [sleepsOf_append,
              show sleepsOf [Ev.create,
                Ev.sleepEv (cfg.retry_delay * 2 ^ (attempt - 1))] =
                [cfg.retry_delay * 2 ^ (attempt - 1)] from rfl]
            have hrange : List.range' attempt (1 + n' - 1) =
                attempt :: List.range' (attempt + 1) (n' - 1) := by
              have h5 : 1 + n' - 1 = (n' - 1) + 1 := by omega
              rw [h5, List.range'_succ]
            rw [hrange, List.map_cons, ihsleep]
            rfl
          · intro k hk hkn
            by_cases hke : k = attempt
            · exact ⟨e, hke ▸ ho⟩
            · exact ihtrans k (by omega) (by omega)
          · have hidx : attempt + 1 + n' - 1 = attempt + (1 + n') - 1 := by omega
            rw [hidx] at ihiff
            rw [ihiff]
            constructor
            · rintro ⟨-, hf⟩
              exact ⟨by omega, hf⟩
            · rintro ⟨-, hf⟩
              exact ⟨hn', hf⟩
        · simp only [createLoop]
          rw [ho]
          simp only [hlt, if_false]
          refine ⟨by simp [createCount], fun _ => by simp [createCount],
            by simp [createCount, sleepsOf], ?_, ?_⟩
          · intro k hk hkn
            simp [createCount] at hkn
            omega
          · simp [createCount, ho]
      · -- non-transient failure: re-raised immediately
        simp only [createLoop]
        rw [ho]
        refine ⟨by simp [createCount], fun _ => by simp [createCount],
          by simp [createCount, sleepsOf], ?_, ?_⟩
        · intro k hk hkn
          simp [createCount] at hkn
          omega
        · simp [createCount, ho]

/-- C6: `_create_sandbox_for_user` makes at most `max_retries` attempts;
the backoff sleeps are exactly `retry_delay * 2^(n-1)` after each failed
non-final attempt `n`, in order; an attempt is followed by another one only
when it raised one of the transient exception classes; and a non-transient
exception is re-raised immediately — the call ends with the
unexpected-error exception exactly when the final attempt made raised a
non-transient exception. -/
theorem C6_create_retry (cfg : SandboxConfig) (env : CallEnv)
    (st : ManagerState) (store : Store) (u p : String) :
    createCount (createSandboxForUser cfg env st store u p).trace ≤
      cfg.max_retries ∧
    sleepsOf (createSandboxForUser cfg env st store u p).trace =
      (List.range'  1
          (createCount (createSandboxForUser cfg env st store u p).trace - 1)).map
        (fun a => cfg.retry_delay * 2 ^ (a - 1)) ∧
    (∀ k, 1 ≤ k →
      k < createCount (createSandboxForUser cfg env st store u p).trace →
      ∃ e2, env.createOutcome k = .transient e2) ∧
    ((createSandboxForUser cfg env st store u p).result =
        .error .createUnexpected ↔
      1 ≤ createCount (createSandboxForUser cfg env st store u p).trace ∧
      env.createOutcome
        (createCount (createSandboxForUser cfg env st store u p).trace) =
        .fatal) := by
  unfold createSandboxForUser
  have h := createLoop_spec cfg env st store u p cfg.max_retries 1
      (Nat.le_refl 1) (by omega)
  obtain ⟨hle, hpos, hsleep, htrans, hiff⟩ := h
  have hidx : 1 + createCount
      (createLoop cfg env st store u p cfg.max_retries 1).trace - 1 =
      createCount (createLoop cfg env st store u p cfg.max_retries 1).trace := by
    omega
  rw [hidx] at hiff
  refine ⟨hle, hsleep, ?_, hiff⟩
  intro k hk hkn
  exact htrans k hk (by omega)

/-- Witness for C1 amended at the concrete reconnect-failure scenario. -/
theorem C1_amended_witness :
    (get_sandbox envReconnFail st0 storeAlice "alice" "p1").state.stats.redis_cache_hits
      = 1 ∧
    (get_sandbox envReconnFail st0 storeAlice "alice" "p1").state.stats.redis_cache_misses
      = 0 := by
  have h := C1_amended envReconnFail st0 storeAlice "alice" "p1" "sb-1" cfg0
      .timeoutErr rfl (by decide) (by decide) (by decide) rfl rfl rfl
      (by decide) rfl rfl
  exact ⟨h.2.2.trans rfl, h.2.1.trans rfl⟩

/-- Witness for C3 amended at the concrete failed-health-probe scenario. -/
theorem C3_amended_witness :
    (get_sandbox envHealthFail stStale storeAlice "alice" "p1").state.stats.redis_cache_misses
      = 1 ∧
    (get_sandbox envHealthFail stStale storeAlice "alice" "p1").state.stats.redis_cache_hits
      = 0 := by
  have h := C3_amended envHealthFail stStale storeAlice "alice" "p1" cfg0
      { sandbox_id := "sb-1", user_id := "alice", project_id := "p1",
        created_at := 0, last_activity := 0 }
      .timeoutErr rfl (by decide) (by decide) (by decide) (by decide) rfl rfl
      rfl rfl rfl
  exact ⟨h.2.1.trans rfl, h.2.2.trans rfl⟩

/-! ### The reaper cycle -/

theorem foldl_alErase_eq_filter {K V : Type} [DecidableEq K] :
    ∀ (ks : List K) (l : List (K × V)),
      ks.foldl (fun acc k => alErase acc k) l =
        l.filter (fun kv => decide (kv.1 ∉ ks)) := by
  intro ks
  induction ks with
  | nil => intro l; simp
  | cons k ks ih =>
      intro l
      rw [List.foldl_cons, ih, alErase_eq_filter, List.filter_filter]
      apply List.filter_congr
      intro kv _
      by_cases h1 : kv.1 = k <;> by_cases h2 : kv.1 ∈ ks <;> simp [h1, h2]

theorem alLookup_filter_none {K V : Type} [DecidableEq K]
    (l : List (K × V)) (pred : K × V → Bool) (k : K)
    (h : ∀ kv : K × V, kv.1 = k → pred kv = false) :
    alLookup (l.filter pred) k = none := by
  induction l with
  | nil => rfl
  | cons hd tl ih =>
      by_cases hk : hd.1 = k
      · rw [List.filter_cons, h hd hk]
        exact ih
      · rw [List.filter_cons]
        rcases hp : pred hd with - | -
        · simpa using ih
        · simpa [alLookup, hk] using ih

/-- Folding Redis-key erasure over tenant keys filters the store. -/
theorem foldl_alErase_rkey (ks : List TKey) (store : Store) :
    ks.foldl (fun acc k => alErase acc (getRedisKey k.1 k.2)) store =
      store.filter (fun kv =>
        decide (kv.1 ∉ ks.map (fun k : TKey => getRedisKey k.1 k.2))) := by
  induction ks generalizing store with
  | nil => simp
  | cons k ks ih =>
      rw [List.foldl_cons, ih, alErase_eq_filter, List.filter_filter]
      apply List.filter_congr
      intro kv _
      by_cases h1 : kv.1 = getRedisKey k.1 k.2 <;>
        by_cases h2 : kv.1 ∈ ks.map (fun k : TKey => getRedisKey k.1 k.2) <;>
          simp [h1, h2]

/-- Folding `_remove_sandbox` over a duplicate-free list of present keys:
the pool keys are erased, `cleaned_up_sandboxes` grows by the number of
keys, the Redis records of the keys are erased, one remote kill per key is
recorded, and configuration / Redis presence are untouched. -/
theorem cleanupFold_spec (env : CallEnv)
    (hping : env.pingOk = true) (hdel : env.delOutcome 0 = .ok) :
    ∀ (ks : List TKey) (st : ManagerState) (store : Store) (tr : List Ev),
      st.redisPresent = true →
      ks.Nodup →
      (∀ k ∈ ks, (alLookup st.pool k).isSome) →
      (ks.foldl
          (fun acc key =>
            let r := removeSandbox env acc.state acc.store key
            (⟨r.state, r.store, acc.trace ++ r.trace⟩ : RemOut))
          ⟨st, store, tr⟩).state.pool =
        ks.foldl (fun acc k => alErase acc k) st.pool ∧
      (ks.foldl
          (fun acc key =>
            let r := removeSandbox env acc.state acc.store key
            (⟨r.state, r.store, acc.trace ++ r.trace⟩ : RemOut))
          ⟨st, store, tr⟩).state.stats.cleaned_up_sandboxes =
        st.stats.cleaned_up_sandboxes + ks.length ∧
      (ks.foldl
          (fun acc key =>
            let r := removeSandbox env acc.state acc.store key
            (⟨r.state, r.store, acc.trace ++ r.trace⟩ : RemOut))
          ⟨st, store, tr⟩).store =
        ks.foldl (fun acc k => alErase acc (getRedisKey k.1 k.2)) store ∧
      killCount (ks.foldl
          (fun acc key =>
            let r := removeSandbox env acc.state acc.store key
            (⟨r.state, r.store, acc.trace ++ r.trace⟩ : RemOut))
          ⟨st, store, tr⟩).trace = killCount tr + ks.length := by
  intro ks
  induction ks with
  | nil =>
      intro st store tr hredis hnd hpres
      exact ⟨rfl, rfl, rfl, rfl⟩
  | cons k ks ih =>
      intro st store tr hredis hnd hpres
      obtain ⟨info, hinfo⟩ :=
        Option.isSome_iff_exists.mp (hpres k (List.mem_cons_self k ks))
      have hrem := removeSandbox_present env st store k info hinfo hredis hping hdel
      simp only [List.foldl_cons]
      rw [hrem]
      have hnd' := (List.nodup_cons.mp hnd).2
      have hknotin := (List.nodup_cons.mp hnd).1
      have hpres' : ∀ k' ∈ ks,
          (alLookup (alErase st.pool k) k').isSome := by
        intro k' hk'
        rw [alLookup_alErase_ne st.pool k k' (by
          intro hc
          exact hknotin (hc ▸ hk'))]
        exact hpres k' (List.mem_cons_of_mem k hk')
      have ihh := ih
          { st with
              pool := alErase st.pool k,
              stats := { st.stats with
                active_sandboxes := (alErase st.pool k).length,
                cleaned_up_sandboxes := st.stats.cleaned_up_sandboxes + 1 } }
          (alErase store (getRedisKey k.1 k.2))
          (tr ++ [Ev.acqPool, Ev.kill (env.killOk k), Ev.relPool, Ev.redisDel])
          hredis hnd' hpres'
      refine ⟨ihh.1, ?_, ihh.2.2.1, ?_⟩
      · rw [ihh.2.1]
        dsimp only
        rw [List.length_cons]
        omega
      · rw [ihh.2.2.2, killCount_append]
        rw [show killCount
          [Ev.acqPool, Ev.kill (env.killOk k), Ev.relPool, Ev.redisDel] = 1 from rfl]
        rw [List.length_cons]
        omega

/-- For a duplicate-free pool, membership of a key in the keys of the
filtered pool is equivalent to the filter predicate holding at its entry. -/
theorem mem_keys_filter {P : TKey × SandboxInfo → Bool}
    {pool : List (TKey × SandboxInfo)}
    (hnd : (pool.map Prod.fst).Nodup) {kv : TKey × SandboxInfo}
    (hkv : kv ∈ pool) :
    (kv.1 ∈ (pool.filter P).map Prod.fst) ↔ P kv = true := by
  constructor
  · intro h
    obtain ⟨kv', hkv', hfst⟩ := List.mem_map.mp h
    obtain ⟨hkv'mem, hP⟩ := List.mem_filter.mp hkv'
    have : kv' = kv := mem_eq_of_nodup_keys hnd hkv'mem hkv hfst
    exact this ▸ hP
  · intro h
    exact List.mem_map_of_mem Prod.fst (List.mem_filter.mpr ⟨hkv, h⟩)

/-- C7: one reaper cycle removes exactly the pool entries that are idle
(`now - last_activity > idle_timeout`) or, otherwise, over-age
(`now - created_at > max_sandbox_age` — applied even to recently active
entries); each removal performs one best-effort remote kill (the outcome
`env.killOk` of the kills does not appear in any of the state conclusions,
so a failed kill never aborts the cycle), removes the entry from the pool,
evicts the tenant's cache record, and increments `cleaned_up_sandboxes` by
one. -/
theorem C7_reaper_cycle (env : CallEnv) (st : ManagerState) (store : Store)
    (cfg : SandboxConfig) (hcfg : st.config = some cfg)
    (hpresent : st.redisPresent = true) (hping : env.pingOk = true)
    (hdel : env.delOutcome 0 = .ok)
    (hnd : (st.pool.map Prod.fst).Nodup) :
    (∀ info : SandboxInfo, shouldRemove cfg env.now info =
      (info.is_idle cfg.idle_timeout env.now ||
        info.is_expired cfg.max_sandbox_age env.now)) ∧
    (cleanupCycle env st store).state.pool =
      st.pool.filter (fun kv => !shouldRemove cfg env.now kv.2) ∧
    (cleanupCycle env st store).state.stats.cleaned_up_sandboxes =
      st.stats.cleaned_up_sandboxes +
        (st.pool.filter (fun kv => shouldRemove cfg env.now kv.2)).length ∧
    (∀ kv ∈ st.pool, shouldRemove cfg env.now kv.2 = true →
      alLookup (cleanupCycle env st store).store
        (getRedisKey kv.1.1 kv.1.2) = none) ∧
    killCount (cleanupCycle env st store).trace =
      (st.pool.filter (fun kv => shouldRemove cfg env.now kv.2)).length := by
  have hpred : ∀ info : SandboxInfo, shouldRemove cfg env.now info =
      (info.is_idle cfg.idle_timeout env.now ||
        info.is_expired cfg.max_sandbox_age env.now) := by
    intro info
    unfold shouldRemove
    rcases h1 : info.is_idle cfg.idle_timeout env.now with - | - <;>
      rcases h2 : info.is_expired cfg.max_sandbox_age env.now with - | - <;>
        simp
  have hcc : cleanupCycle env st store =
      ((st.pool.filter (fun kv => shouldRemove cfg env.now kv.2)).map (·.1)).foldl
        (fun acc key =>
          let r := removeSandbox env acc.state acc.store key
          (⟨r.state, r.store, acc.trace ++ r.trace⟩ : RemOut))
        ⟨st, store, [Ev.acqPool, Ev.relPool]⟩ := by
    unfold cleanupCycle
    rw [hcfg]
  have hndks : (((st.pool.filter
      (fun kv => shouldRemove cfg env.now kv.2)).map (·.1)) : List TKey).Nodup :=
    hnd.sublist (List.Sublist.map Prod.fst (List.filter_sublist st.pool))
  have hpres : ∀ k ∈ ((st.pool.filter
      (fun kv => shouldRemove cfg env.now kv.2)).map (·.1) : List TKey),
      (alLookup st.pool k).isSome := by
    intro k hk
    rw [alLookup_isSome_iff_mem]
    obtain ⟨kv, hkv, hfst⟩ := List.mem_map.mp hk
    exact hfst ▸ List.mem_map_of_mem Prod.fst (List.mem_filter.mp hkv).1
  have h := cleanupFold_spec env hping hdel
      ((st.pool.filter (fun kv => shouldRemove cfg env.now kv.2)).map (·.1))
      st store [Ev.acqPool, Ev.relPool] hpresent hndks hpres
  obtain ⟨hpool, hclean, hstore, hkill⟩ := h
  rw [hcc]
  refine ⟨hpred, ?_, ?_, ?_, ?_⟩
  · rw [hpool, foldl_alErase_eq_filter]
    apply List.filter_congr
    intro kv hkv
    have hmem := mem_keys_filter (P := fun kv => shouldRemove cfg env.now kv.2)
      hnd hkv
    rcases hP : shouldRemove cfg env.now kv.2 with - | -
    · have hnotin : kv.1 ∉ (st.pool.filter
          (fun kv => shouldRemove cfg env.now kv.2)).map Prod.fst := by
        intro hc
        have hbad := hmem.mp hc
        simp [hP] at hbad
      simp [hnotin, hP]
    · have hin := hmem.mpr hP
      simp [hin, hP]
  · rw [hclean, List.length_map]
  · intro kv hkv hP
    rw [hstore, foldl_alErase_rkey]
    apply alLookup_filter_none
    intro kv' hkv'
    simp only [decide_eq_false_iff_not, not_not]
    rw [hkv']
    apply List.mem_map_of_mem (fun k : TKey => getRedisKey k.1 k.2)
    exact (mem_keys_filter (P := fun kv => shouldRemove cfg env.now kv.2)
      hnd hkv).mpr hP
  · rw [hkill, List.length_map]
    simp [killCount]

/-- An idle pool entry (last active at time 0). -/
def infoIdle : SandboxInfo :=
  { sandbox_id := "sb-1", user_id := "alice", project_id := "p1",
    created_at := 0, last_activity := 0 }

/-- A fresh pool entry (created and last active at time 590). -/
def infoFresh : SandboxInfo :=
  { sandbox_id := "sb-2", user_id := "carol", project_id := "p2",
    created_at := 590, last_activity := 590 }

/-- A manager holding one idle and one fresh entry. -/
def stTwo : ManagerState :=
  { st0 with
    pool := [(("alice", "p1"), infoIdle), (("carol", "p2"), infoFresh)] }

/-- The Redis records of the two entries of `stTwo`. -/
def storeTwo : Store :=
  [("sandbox:alice:p1", "sb-1"), ("sandbox:carol:p2", "sb-2")]

/-- Witness for C7: a pool with one idle entry (last active at time 0, now
600 with `idle_timeout = 500`) and one fresh entry; the idle one is
removed, the fresh one survives, its cache record is evicted and
`cleaned_up_sandboxes` becomes 1. -/
theorem C7_witness :
    (cleanupCycle { envA with now := 600 } stTwo storeTwo).state.pool =
      [(("carol", "p2"), infoFresh)] ∧
    (cleanupCycle { envA with now := 600 } stTwo storeTwo).state.stats.cleaned_up_sandboxes
      = 1 ∧
    alLookup (cleanupCycle { envA with now := 600 } stTwo storeTwo).store
      (getRedisKey "alice" "p1") = none ∧
    killCount (cleanupCycle { envA with now := 600 } stTwo storeTwo).trace = 1 := by
  have h := C7_reaper_cycle { envA with now := 600 } stTwo storeTwo cfg0 rfl rfl
      rfl rfl (by decide)
  refine ⟨?_, ?_, ?_, ?_⟩
  · rw [h.2.1]
    decide
  · rw [h.2.2.1]
    decide
  · exact h.2.2.2.1 (("alice", "p1"), infoIdle) (by decide) (by decide)
  · rw [h.2.2.2.2]
    decide

/-! ### Lock discipline of the pool-wide lock -/

theorem lockDiscipline_append : ∀ (a b : List Ev) (d : Nat),
    lockDiscipline d (a ++ b) =
      (lockDiscipline d a && lockDiscipline (a.foldl depthStep d) b) := by
  intro a
  induction a with
  | nil => intro b d; simp [lockDiscipline]
  | cons e a ih =>
      intro b d
      simp [lockDiscipline, ih, Bool.and_assoc]

theorem ld_append_of {a b : List Ev} (h1 : lockDiscipline 0 a = true)
    (h1d : a.foldl depthStep 0 = 0) (h2 : lockDiscipline 0 b = true) :
    lockDiscipline 0 (a ++ b) = true := by
  rw [lockDiscipline_append, h1, h1d, h2]
  rfl

theorem depth_append_of {a b : List Ev} (h1d : a.foldl depthStep 0 = 0)
    (h2d : b.foldl depthStep 0 = 0) : (a ++ b).foldl depthStep 0 = 0 := by
  rw [List.foldl_append, h1d, h2d]

/-- The trace of a cache read is one or two `redisGet` events (or empty). -/
theorem getCachedSandboxId_trace (avail : Bool) (o : Nat → CacheOp)
    (store : Store) (key : String) (stats : Stats) :
    (getCachedSandboxId avail o store key stats).trace = [] ∨
    (getCachedSandboxId avail o store key stats).trace = [Ev.redisGet] ∨
    (getCachedSandboxId avail o store key stats).trace = [Ev.redisGet, Ev.redisGet] := by
  unfold getCachedSandboxId
  repeat' split
  all_goals simp

theorem lockDiscipline_cacheGet (avail : Bool) (o : Nat → CacheOp)
    (store : Store) (key : String) (stats : Stats) :
    lockDiscipline 0 (getCachedSandboxId avail o store key stats).trace = true ∧
    (getCachedSandboxId avail o store key stats).trace.foldl depthStep 0 = 0 := by
  rcases getCachedSandboxId_trace avail o store key stats with h | h | h <;>
    rw [h] <;> exact ⟨rfl, rfl⟩

theorem lockDiscipline_cacheSet (avail : Bool) (o : Nat → CacheOp)
    (store : Store) (key sid : String) (ttl : Nat) :
    lockDiscipline 0 (cacheSandboxId avail o store key sid ttl).trace = true ∧
    (cacheSandboxId avail o store key sid ttl).trace.foldl depthStep 0 = 0 := by
  rcases cacheSandboxId_trace avail o store key sid ttl with h | h | h <;>
    rw [h] <;> exact ⟨rfl, rfl⟩

theorem lockDiscipline_cacheDel (avail : Bool) (o : Nat → CacheOp)
    (store : Store) (key : String) :
    lockDiscipline 0 (removeCachedSandboxId avail o store key).trace = true ∧
    (removeCachedSandboxId avail o store key).trace.foldl depthStep 0 = 0 := by
  rcases removeCachedSandboxId_trace avail o store key with h | h | h <;>
    rw [h] <;> exact ⟨rfl, rfl⟩

theorem lockDiscipline_removeSandbox (env : CallEnv) (st : ManagerState)
    (store : Store) (key : TKey) :
    lockDiscipline 0 (removeSandbox env st store key).trace = true ∧
    (removeSandbox env st store key).trace.foldl depthStep 0 = 0 := by
  unfold removeSandbox
  rcases alLookup st.pool key with - | info <;>
  · dsimp only
    exact ⟨ld_append_of rfl rfl (lockDiscipline_cacheDel _ _ _ _).1,
      depth_append_of rfl (lockDiscipline_cacheDel _ _ _ _).2⟩

theorem lockDiscipline_createLoop (cfg : SandboxConfig) (env : CallEnv)
    (u p : String) :
    ∀ (rem attempt : Nat) (st : ManagerState) (store : Store),
      lockDiscipline 0 (createLoop cfg env st store u p rem attempt).trace = true ∧
      (createLoop cfg env st store u p rem attempt).trace.foldl depthStep 0 = 0 := by
  intro rem
  induction rem with
  | zero => intro attempt st store; exact ⟨rfl, rfl⟩
  | succ r ih =>
      intro attempt st store
      unfold createLoop
      rcases env.createOutcome attempt with sid | e | _
      · dsimp only
        exact ⟨ld_append_of rfl rfl (lockDiscipline_cacheSet _ _ _ _ _ _).1,
          depth_append_of rfl (lockDiscipline_cacheSet _ _ _ _ _ _).2⟩
      · dsimp only
        split
        · exact ⟨ld_append_of rfl rfl (ih (attempt + 1) st store).1,
            depth_append_of rfl (ih (attempt + 1) st store).2⟩
        · exact ⟨rfl, rfl⟩
      · exact ⟨rfl, rfl⟩

theorem lockDiscipline_stepCreate (cfg : SandboxConfig) (env : CallEnv)
    (st : ManagerState) (store : Store) (u p : String) :
    lockDiscipline 0 (stepCreate cfg env st store u p).trace = true ∧
    (stepCreate cfg env st store u p).trace.foldl depthStep 0 = 0 := by
  unfold stepCreate
  rcases enforceResourceLimits cfg u st with ⟨oe, st2⟩
  cases oe
  · exact lockDiscipline_createLoop cfg env u p cfg.max_retries 1 st2 store
  · exact ⟨rfl, rfl⟩

theorem lockDiscipline_stepCacheAndCreate (cfg : SandboxConfig) (env : CallEnv)
    (st : ManagerState) (store : Store) (u p : String) :
    lockDiscipline 0 (stepCacheAndCreate cfg env st store u p).trace = true ∧
    (stepCacheAndCreate cfg env st store u p).trace.foldl depthStep 0 = 0 := by
  unfold stepCacheAndCreate
  dsimp only
  rcases hres : (getCachedSandboxId (isRedisAvailable st env) env.getOutcome
      store (getRedisKey u p) st.stats).result with - | sid
  · dsimp only
    exact ⟨ld_append_of (lockDiscipline_cacheGet _ _ _ _ _).1
        (lockDiscipline_cacheGet _ _ _ _ _).2
        (lockDiscipline_stepCreate _ _ _ _ _ _).1,
      depth_append_of (lockDiscipline_cacheGet _ _ _ _ _).2
        (lockDiscipline_stepCreate _ _ _ _ _ _).2⟩
  · rcases hco : env.connectOutcome with - | e
    · dsimp only
      split
      · exact ⟨ld_append_of (lockDiscipline_cacheGet _ _ _ _ _).1
            (lockDiscipline_cacheGet _ _ _ _ _).2 rfl,
          depth_append_of (lockDiscipline_cacheGet _ _ _ _ _).2 rfl⟩
      · dsimp only
        exact ⟨ld_append_of
            (ld_append_of
              (ld_append_of (lockDiscipline_cacheGet _ _ _ _ _).1
                (lockDiscipline_cacheGet _ _ _ _ _).2 rfl)
              (depth_append_of (lockDiscipline_cacheGet _ _ _ _ _).2 rfl)
              (lockDiscipline_cacheDel _ _ _ _).1)
            (depth_append_of
              (depth_append_of (lockDiscipline_cacheGet _ _ _ _ _).2 rfl)
              (lockDiscipline_cacheDel _ _ _ _).2)
            (lockDiscipline_stepCreate _ _ _ _ _ _).1,
          depth_append_of
            (depth_append_of
              (depth_append_of (lockDiscipline_cacheGet _ _ _ _ _).2 rfl)
              (lockDiscipline_cacheDel _ _ _ _).2)
            (lockDiscipline_stepCreate _ _ _ _ _ _).2⟩
    · dsimp only
      exact ⟨ld_append_of
          (ld_append_of
            (ld_append_of (lockDiscipline_cacheGet _ _ _ _ _).1
              (lockDiscipline_cacheGet _ _ _ _ _).2 rfl)
            (depth_append_of (lockDiscipline_cacheGet _ _ _ _ _).2 rfl)
            (lockDiscipline_cacheDel _ _ _ _).1)
          (depth_append_of
            (depth_append_of (lockDiscipline_cacheGet _ _ _ _ _).2 rfl)
            (lockDiscipline_cacheDel _ _ _ _).2)
          (lockDiscipline_stepCreate _ _ _ _ _ _).1,
        depth_append_of
          (depth_append_of
            (depth_append_of (lockDiscipline_cacheGet _ _ _ _ _).2 rfl)
            (lockDiscipline_cacheDel _ _ _ _).2)
          (lockDiscipline_stepCreate _ _ _ _ _ _).2⟩

theorem lockDiscipline_get_sandbox (env : CallEnv) (st : ManagerState)
    (store : Store) (u p : String) :
    lockDiscipline 0 (get_sandbox env st store u p).trace = true := by
  unfold get_sandbox
  rcases hcfg : st.config with - | cfg
  · rfl
  · rcases hval : validate_userid_projectid u p with - | e
    · dsimp only
      rcases hl : alLookup st.pool (u, p) with - | info
      · exact (lockDiscipline_stepCacheAndCreate cfg env _ store u p).1
      · dsimp only
        split
        · rfl
        · rcases hh : env.healthOutcome with - | e2
          · rfl
          · dsimp only
            exact ld_append_of
              (ld_append_of rfl rfl (lockDiscipline_removeSandbox _ _ _ _).1)
              (depth_append_of rfl (lockDiscipline_removeSandbox _ _ _ _).2)
              (lockDiscipline_stepCacheAndCreate _ _ _ _ _ _).1
    · rfl

theorem lockDiscipline_cleanupCycle (env : CallEnv) (st : ManagerState)
    (store : Store) :
    lockDiscipline 0 (cleanupCycle env st store).trace = true := by
  unfold cleanupCycle
  rcases hcfg : st.config with - | cfg
  · rfl
  · dsimp only
    have hfold : ∀ (ks : List TKey) (acc : RemOut),
        lockDiscipline 0 acc.trace = true →
        acc.trace.foldl depthStep 0 = 0 →
        lockDiscipline 0 ((ks.foldl
          (fun acc key =>
            let r := removeSandbox env acc.state acc.store key
            (⟨r.state, r.store, acc.trace ++ r.trace⟩ : RemOut)) acc)).trace = true ∧
        ((ks.foldl
          (fun acc key =>
            let r := removeSandbox env acc.state acc.store key
            (⟨r.state, r.store, acc.trace ++ r.trace⟩ : RemOut)) acc)).trace.foldl
            depthStep 0 = 0 := by
      intro ks
      induction ks with
      | nil => intro acc h1 h2; exact ⟨h1, h2⟩
      | cons k ks ih =>
          intro acc h1 h2
          rw [List.foldl_cons]
          exact ih _
            (ld_append_of h1 h2 (lockDiscipline_removeSandbox _ _ _ _).1)
            (depth_append_of h2 (lockDiscipline_removeSandbox _ _ _ _).2)
    exact (hfold _ ⟨st, store, [Ev.acqPool, Ev.relPool]⟩ rfl rfl).1

theorem lockDiscipline_close_sandbox (env : CallEnv) (st : ManagerState)
    (store : Store) (u p : String) :
    lockDiscipline 0 (close_sandbox env st store u p).2.trace = true := by
  unfold close_sandbox
  rcases hval : validate_userid_projectid u p with - | e
  · dsimp only
    exact ld_append_of (lockDiscipline_removeSandbox _ _ _ _).1
      (lockDiscipline_removeSandbox _ _ _ _).2
      (lockDiscipline_cacheDel _ _ _ _).1
  · rfl

/-- The state of the manager after one successful creation of `sb-1` for
`("alice", "p1")` (reached by a `get_sandbox` call on a fresh manager). -/
def stAfterCreate : ManagerState := (get_sandbox envA st0 [] "alice" "p1").state

/-- The Redis store after that creation. -/
def storeAfterCreate : Store := (get_sandbox envA st0 [] "alice" "p1").store

/-- C4's claim fails on the code: in a reachable execution (create a
sandbox, then `close_sandbox` it) the remote `kill()` call of
`_remove_sandbox` is performed while the pool-wide lock is held. -/
theorem C4_counterexample :
    (get_sandbox envA st0 [] "alice" "p1").result = .ok "sb-1" ∧
    existsRemoteUnderLock 0
      (close_sandbox envA stAfterCreate storeAfterCreate "alice" "p1").2.trace
      = true := by
  exact ⟨rfl, rfl⟩

/-- C4 amended: in every execution of `get_sandbox`, `close_sandbox` and
the reaper cycle, every remote health-check, connect and create call and
every cache call happens while the pool-wide lock is released, and the
lock is otherwise held only for short map mutations — with one exception:
the remote `kill()` in `_remove_sandbox` (used by the reaper's removal
path and by explicit close) is performed while the pool-wide lock is
held. -/
theorem C4_lock_discipline (env : CallEnv) (st : ManagerState) (store : Store)
    (u p : String) (hu : u ≠ "") (hp : p ≠ "")
    (hpresent : (alLookup st.pool (u, p)).isSome) :
    existsRemoteUnderLock 0 (close_sandbox env st store u p).2.trace = true ∧
    lockDiscipline 0 (close_sandbox env st store u p).2.trace = true ∧
    (∀ (env2 : CallEnv) (st2 : ManagerState) (store2 : Store) (u2 p2 : String),
      lockDiscipline 0 (get_sandbox env2 st2 store2 u2 p2).trace = true) ∧
    (∀ (env2 : CallEnv) (st2 : ManagerState) (store2 : Store),
      lockDiscipline 0 (cleanupCycle env2 st2 store2).trace = true) := by
  refine ⟨?_, lockDiscipline_close_sandbox env st store u p,
    lockDiscipline_get_sandbox, lockDiscipline_cleanupCycle⟩
  have hval : validate_userid_projectid u p = none := by
    simp [validate_userid_projectid, hu, hp]
  obtain ⟨info, hinfo⟩ := Option.isSome_iff_exists.mp hpresent
  unfold close_sandbox
  rw [hval]
  dsimp only
  unfold removeSandbox
  rw [hinfo]
  dsimp only
  simp [existsRemoteUnderLock, isRemoteOrCache, depthStep]

/-- Witness for C4 amended at the concrete create-then-close scenario. -/
theorem C4_witness :
    existsRemoteUnderLock 0
      (close_sandbox envA stAfterCreate storeAfterCreate "alice" "p1").2.trace
      = true ∧
    lockDiscipline 0
      (close_sandbox envA stAfterCreate storeAfterCreate "alice" "p1").2.trace
      = true := by
  have h := C4_lock_discipline envA stAfterCreate storeAfterCreate "alice" "p1"
      (by decide) (by decide) (by decide)
  exact ⟨h.1, h.2.1⟩

end SandboxManager
